import Mathlib

/-!
Verification development for the football-analytics ingestion core
(`src/app/load_from_s3.py`).  The Python source is shallowly embedded:
JSON documents are an inductive `Json` type, the object store is a pure
function from key strings to fetch results, the relational store is a
record of row lists plus schema flags, and each ingestion job is a pure
Lean function that mirrors the control flow of the corresponding Python
function (including transaction commit/rollback and caught exceptions).
-/

/-- A JSON value, as produced by `json.load` in the source.  Python's
`None` is `Json.null`. -/
inductive Json where
  | null : Json
  | b : Bool → Json
  | i : Int → Json
  | s : String → Json
  | arr : List Json → Json
  | obj : List (String × Json) → Json

/-- Python `row["k"]` on a parsed JSON value: `KeyError` when the key is
absent from a dict, `TypeError` when the receiver is not a dict. -/
def pyGetItem (j : Json) (k : String) : Except String Json :=
  match j with
  | .obj kvs =>
    match kvs.lookup k with
    | some v => .ok v
    | none => .error "KeyError"
  | _ => .error "TypeError"

/-- Python `d.get(k, default)`: yields the stored value (even when it is
`None`) or the default; `AttributeError` when the receiver is not a dict. -/
def pyGetDefault (j : Json) (k : String) (d : Json) : Except String Json :=
  match j with
  | .obj kvs => .ok ((kvs.lookup k).getD d)
  | _ => .error "AttributeError"

/-- Python `for x in data` over a parsed JSON value: a list iterates its
elements, a dict iterates its keys, a string iterates its characters;
anything else raises `TypeError`. -/
def pyIter (j : Json) : Except String (List Json) :=
  match j with
  | .arr xs => .ok xs
  | .obj kvs => .ok (kvs.map (fun kv => .s kv.1))
  | .s str => .ok (str.toList.map (fun c => .s (String.mk [c])))
  | _ => .error "TypeError"

/-- Python f-string interpolation of a value (only ints and strings are
interpolated into resource keys by the source). -/
def pyStr : Json → String
  | .null => "None"
  | .b true => "True"
  | .b false => "False"
  | .i n => toString n
  | .s str => str
  | .arr _ => "<list>"
  | .obj _ => "<dict>"

/-- Default object-key base, the source's `S3_PREFIX` constant
(`os.getenv("S3_PREFIX", "open-data/data/")`). -/
def s3KeyBase : String := "open-data/data/"

/-- Key of the root manifest: `f"{S3_PREFIX}competitions.json"`. -/
def competitionsKey : String := s3KeyBase ++ "competitions.json"

/-- Key of one competition/season match list:
`f"{S3_PREFIX}matches/{comp_id}/{season_id}.json"`. -/
def matchesKey (cid sid : Json) : String :=
  s3KeyBase ++ "matches/" ++ pyStr cid ++ "/" ++ pyStr sid ++ ".json"

/-- Key of one match's lineup resource: `f"{S3_PREFIX}lineups/{match_id}.json"`. -/
def lineupsKey (mid : Json) : String :=
  s3KeyBase ++ "lineups/" ++ pyStr mid ++ ".json"

/-- Key of one match's event resource: `f"{S3_PREFIX}events/{match_id}.json"`. -/
def eventsKey (mid : Json) : String :=
  s3KeyBase ++ "events/" ++ pyStr mid ++ ".json"

/-- The object store: `s3.get_object` + `json.load`, a pure map from key to
either a parsed document or an error (missing key, malformed JSON, network). -/
abbrev S3 := String → Except String Json

/-- Console log of failure/warning lines printed by the jobs. -/
abbrev Log := List String

/-- One row of the `competitions` table. -/
structure CompRow where
  competition_id : Json
  season_id : Json
  country_name : Json
  competition_name : Json
  season_name : Json

/-- One row of the `matches` table. -/
structure MatchRow where
  match_id : Json
  competition_id : Json
  season_id : Json
  match_date : Json
  home_team : Json
  away_team : Json

/-- One row of the `lineups` table. -/
structure LineupRow where
  match_id : Json
  team_name : Json
  player_name : Json

/-- One row of the `events` table; `id` is the `SERIAL PRIMARY KEY`. -/
structure EventRow where
  id : Nat
  match_id : Json
  index : Json
  timestamp : Json
  type : Json

/-- The relational store: one list of rows per table, plus schema state.
`matchesTbl` is the `matches` table (the SQL name is a reserved word here).
`eventsUnique` records whether the `events` table carries the
`UNIQUE (match_id, index)` constraint (it does when the table was created
by the DDL of `load_events`' concurrent section, and does not when it was
created by the DDL of the trailing sequential section). -/
structure DB where
  competitionsCreated : Bool
  matchesCreated : Bool
  lineupsCreated : Bool
  eventsCreated : Bool
  eventsUnique : Bool
  eventsNextId : Nat
  competitions : List CompRow
  matchesTbl : List MatchRow
  lineups : List LineupRow
  events : List EventRow

/-- A fresh database, before any job has run. -/
def DB.empty : DB :=
  { competitionsCreated := false, matchesCreated := false,
    lineupsCreated := false, eventsCreated := false, eventsUnique := false,
    eventsNextId := 1, competitions := [], matchesTbl := [], lineups := [],
    events := [] }

/-- SQL value comparison as used by uniqueness constraints: `NULL` is never
equal to anything (so rows with a `NULL` key component never conflict), and
scalar values compare by value.  Only scalar values reach SQL columns in
the source's inserts. -/
def sqlEq (a c : Json) : Bool :=
  match a, c with
  | .null, _ => false
  | _, .null => false
  | .b x, .b y => x == y
  | .i x, .i y => x == y
  | .s x, .s y => x == y
  | _, _ => false

/-- Whether some `events` row already carries the `(match_id, index)` key,
in the SQL sense (a `NULL` index never matches). -/
def keyPresent (db : DB) (m idx : Json) : Bool :=
  db.events.any (fun r => sqlEq r.match_id m && sqlEq r.index idx)

/-- `CREATE TABLE IF NOT EXISTS competitions (...)`: no constraint of any
kind is declared. -/
def createCompetitionsTable (db : DB) : DB :=
  if db.competitionsCreated then db else { db with competitionsCreated := true }

/-- `CREATE TABLE IF NOT EXISTS matches (match_id BIGINT PRIMARY KEY, ...)`. -/
def createMatchesTable (db : DB) : DB :=
  if db.matchesCreated then db else { db with matchesCreated := true }

/-- `CREATE TABLE IF NOT EXISTS lineups (...)`: no constraint declared. -/
def createLineupsTable (db : DB) : DB :=
  if db.lineupsCreated then db else { db with lineupsCreated := true }

/-- The DDL issued first by `load_events`: `CREATE TABLE IF NOT EXISTS
events (id SERIAL PRIMARY KEY, ..., UNIQUE (match_id, index))`.  When the
table does not exist yet it is created with the uniqueness constraint. -/
def createEventsTableUnique (db : DB) : DB :=
  if db.eventsCreated then db
  else { db with eventsCreated := true, eventsUnique := true }

/-- The DDL issued by the trailing sequential section of `load_events`:
the same table name but without `UNIQUE (match_id, index)`.  A no-op when
the table already exists. -/
def createEventsTablePlain (db : DB) : DB :=
  if db.eventsCreated then db
  else { db with eventsCreated := true, eventsUnique := false }

/-- `INSERT INTO competitions ... ON CONFLICT DO NOTHING`: the table
declares no uniqueness constraint, so no conflict can ever arise and every
insert appends a row. -/
def insertCompetition (db : DB) (r : CompRow) : DB :=
  { db with competitions := db.competitions ++ [r] }

/-- `INSERT INTO matches ... ON CONFLICT (match_id) DO NOTHING`: a `NULL`
primary key raises (NOT NULL violation); an existing `match_id` silently
keeps the existing row; otherwise the row is appended. -/
def insertMatchIgnore (db : DB) (r : MatchRow) : Except String DB :=
  match r.match_id with
  | .null => .error "NotNullViolation"
  | _ =>
    if db.matchesTbl.any (fun x => sqlEq x.match_id r.match_id) then .ok db
    else .ok { db with matchesTbl := db.matchesTbl ++ [r] }

/-- `INSERT INTO lineups ... VALUES %s` (no conflict clause, but also no
constraint to violate): appends all rows. -/
def insertLineups (db : DB) (rows : List LineupRow) : DB :=
  { db with lineups := db.lineups ++ rows }

/-- The values of one event row as passed to the insert statement, in
source order: `match_id`, `event.get("index")`, `event.get("timestamp")`,
`event.get("type", {}).get("name")`. -/
structure EvTuple where
  m : Json
  idx : Json
  ts : Json
  ty : Json

/-- One row of `INSERT INTO events ... ON CONFLICT DO NOTHING`: when the
uniqueness constraint exists and the `(match_id, index)` key is already
present the row is skipped (the serial id is still consumed, as Postgres
evaluates column defaults before the conflict check); otherwise the row is
appended. -/
def insertEventIgnore (db : DB) (t : EvTuple) : DB :=
  if db.eventsUnique && keyPresent db t.m t.idx then
    { db with eventsNextId := db.eventsNextId + 1 }
  else
    { db with
      events := db.events ++ [⟨db.eventsNextId, t.m, t.idx, t.ts, t.ty⟩],
      eventsNextId := db.eventsNextId + 1 }

/-- One row of the trailing sequential section's `INSERT INTO events ...`
(no conflict clause): raises `UniqueViolation` when the uniqueness
constraint exists and the key is already present. -/
def insertEventPlain (db : DB) (t : EvTuple) : Except String DB :=
  if db.eventsUnique && keyPresent db t.m t.idx then .error "UniqueViolation"
  else
    .ok { db with
      events := db.events ++ [⟨db.eventsNextId, t.m, t.idx, t.ts, t.ty⟩],
      eventsNextId := db.eventsNextId + 1 }

/-- `execute_values(cur, "INSERT INTO events ... ON CONFLICT DO NOTHING", rows)`:
one multi-row statement, rows processed in list order. -/
def insertEventBatchIgnore (db : DB) (rows : List EvTuple) : DB :=
  rows.foldl insertEventIgnore db

/-- A database connection: the pending (uncommitted) state plus whether the
current transaction has been aborted by an SQL error (psycopg2's
`InFailedSqlTransaction` state).  Committing an aborted transaction rolls
it back. -/
structure Conn where
  db : DB
  txFailed : Bool

/-- Closing a `with psycopg2.connect(...)` block without an escaping
exception commits; an aborted transaction nets a rollback to the state at
connection open. -/
def commitConn (atOpen : DB) (c : Conn) : DB :=
  if c.txFailed then atOpen else c.db

/-- Field projection of one manifest record inside `load_competitions`'
insert, in source order; any absent field raises `KeyError` (there is no
per-record exception handler in `load_competitions`). -/
def normalizeCompRow (row : Json) : Except String CompRow := do
  let cid ← pyGetItem row "competition_id"
  let sid ← pyGetItem row "season_id"
  let cn ← pyGetItem row "country_name"
  let con ← pyGetItem row "competition_name"
  let sn ← pyGetItem row "season_name"
  .ok ⟨cid, sid, cn, con, sn⟩

/-- The `for row in data` insert loop of `load_competitions`.  A failing
projection raises out of the loop (uncaught); inserts cannot raise. -/
def compLoop : List Json → DB → Except String DB
  | [], db => .ok db
  | row :: rest, db =>
    match normalizeCompRow row with
    | .error e => .error e
    | .ok r => compLoop rest (insertCompetition db r)

/-- `load_competitions`: fetch the manifest (before the connection opens),
create the table, insert every record.  An uncaught exception escapes the
`with` block, which rolls the transaction back (including the DDL), so the
database is returned unchanged together with the exception. -/
def loadCompetitions (s3 : S3) (db : DB) : DB × Option String :=
  match s3 competitionsKey with
  | .error e => (db, some e)
  | .ok data =>
    match pyIter data with
    | .error e => (db, some e)
    | .ok rows =>
      match compLoop rows (createCompetitionsTable db) with
      | .error e => (db, some e)
      | .ok db2 => (db2, none)

/-- Field projection of one match record inside `load_matches`' insert, in
source order: `match["match_id"]`, the loop's `comp_id`/`season_id`,
`match["match_date"]`, `match["home_team"]["home_team_name"]`,
`match["away_team"]["away_team_name"]`. -/
def normalizeMatchRow (cid sid m : Json) : Except String MatchRow := do
  let mid ← pyGetItem m "match_id"
  let md ← pyGetItem m "match_date"
  let ht ← pyGetItem m "home_team"
  let htn ← pyGetItem ht "home_team_name"
  let aw ← pyGetItem m "away_team"
  let awn ← pyGetItem aw "away_team_name"
  .ok ⟨mid, cid, sid, md, htn, awn⟩

/-- Result of a block of statements run inside a `try`: either it finished
with the connection in the given state, or an exception was raised with
the connection in the given state (prior successful inserts stay pending). -/
inductive TryRes where
  | fine (c : Conn)
  | exn (c : Conn) (msg : String)

/-- Execute one fallible SQL insert on a connection: in an aborted
transaction every statement raises `InFailedSqlTransaction`; an SQL error
aborts the transaction and raises. -/
def connExec (c : Conn) (stmt : DB → Except String DB) : TryRes :=
  if c.txFailed then .exn c "InFailedSqlTransaction"
  else
    match stmt c.db with
    | .ok db2 => .fine ⟨db2, false⟩
    | .error e => .exn ⟨c.db, true⟩ e

/-- The `for match in data` loop of `load_matches` for one
competition/season pair.  Any exception (missing field while building the
row, or an SQL error from the insert) aborts the remaining matches of that
pair and propagates to the per-pair handler. -/
def matchesPairLoop (cid sid : Json) : List Json → Conn → TryRes
  | [], c => .fine c
  | m :: rest, c =>
    match normalizeMatchRow cid sid m with
    | .error e => .exn c e
    | .ok r =>
      match connExec c (fun db => insertMatchIgnore db r) with
      | .fine c2 => matchesPairLoop cid sid rest c2
      | .exn c2 e => .exn c2 e

/-- One competition/season pair of `load_matches`: the ids are read outside
any handler (their absence is fatal); the fetch and the insert loop run
under a `try` whose handler only logs, so a caught exception keeps the
pending state reached so far. -/
def matchesPairStep (s3 : S3) (comp : Json) (c : Conn) : Except String Conn := do
  let cid ← pyGetItem comp "competition_id"
  let sid ← pyGetItem comp "season_id"
  match s3 (matchesKey cid sid) with
  | .error _ => .ok c
  | .ok mj =>
    match pyIter mj with
    | .error _ => .ok c
    | .ok ms =>
      match matchesPairLoop cid sid ms c with
      | .fine c2 => .ok c2
      | .exn c2 _ => .ok c2

/-- The `for comp in competitions` loop of `load_matches`. -/
def matchesCompsLoop (s3 : S3) : List Json → Conn → Except String Conn
  | [], c => .ok c
  | comp :: rest, c =>
    match matchesPairStep s3 comp c with
    | .error e => .error e
    | .ok c2 => matchesCompsLoop s3 rest c2

/-- `load_matches`: one connection for the whole job; the manifest is
fetched inside the `with` block, so any uncaught exception (manifest fetch
failure or a manifest record with missing ids) rolls everything back. -/
def loadMatches (s3 : S3) (db : DB) : DB × Option String :=
  let c0 : Conn := ⟨createMatchesTable db, false⟩
  match s3 competitionsKey with
  | .error e => (db, some e)
  | .ok comps =>
    match pyIter comps with
    | .error e => (db, some e)
    | .ok cs =>
      match matchesCompsLoop s3 cs c0 with
      | .error e => (db, some e)
      | .ok c => (commitConn db c, none)

/-- The inner `for player in team["lineup"]` loop of `load_lineups`: one
row per `player["player_name"]`; a missing name raises. -/
def lineupPlayersRows (mid tn : Json) : List Json → Except String (List LineupRow)
  | [] => .ok []
  | p :: rest => do
    let pn ← pyGetItem p "player_name"
    let rr ← lineupPlayersRows mid tn rest
    .ok (⟨mid, tn, pn⟩ :: rr)

/-- The lineup rows built for one team entry: `team["team_name"]`, then one
row per player in `team["lineup"]`; a missing name raises out of the whole
batch. -/
def lineupTeamRows (mid team : Json) : Except String (List LineupRow) := do
  let tn ← pyGetItem team "team_name"
  let lu ← pyGetItem team "lineup"
  let players ← pyIter lu
  lineupPlayersRows mid tn players

/-- `rows_to_insert` of `load_lineups` for one match: all teams' rows in
order; any missing team or player name raises, discarding the whole batch. -/
def lineupMatchRows (mid : Json) : List Json → Except String (List LineupRow)
  | [] => .ok []
  | team :: rest => do
    let tr ← lineupTeamRows mid team
    let rr ← lineupMatchRows mid rest
    .ok (tr ++ rr)

/-- The warning `load_lineups` prints when one match's lineup load fails. -/
def lineupsFailMsg (mid : Json) (e : String) : String :=
  "Failed to load lineups for match " ++ pyStr mid ++ ": " ++ e

/-- The warning `load_lineups` prints when one pair's match list fails. -/
def lineupsPairFailMsg (cid sid : Json) (e : String) : String :=
  "Failed to load match list for competition " ++ pyStr cid ++ ", season " ++ pyStr sid ++ ": " ++ e

/-- The per-match body of `load_lineups` under its inner `try`: fetch the
lineup resource, build all rows, insert them as one batch; any exception is
caught by the inner handler, which logs and moves to the next match.
Lineup inserts cannot raise (the table has no constraint), so the
transaction is never aborted by this job. -/
def lineupsMatchStep (s3 : S3) (m : Json) (db : DB) (log : Log) :
    Except String (DB × Log) := do
  let mid ← pyGetItem m "match_id"
  match s3 (lineupsKey mid) with
  | .error e => .ok (db, log ++ [lineupsFailMsg mid e])
  | .ok data =>
    match pyIter data with
    | .error e => .ok (db, log ++ [lineupsFailMsg mid e])
    | .ok teams =>
      match lineupMatchRows mid teams with
      | .error e => .ok (db, log ++ [lineupsFailMsg mid e])
      | .ok rows =>
        .ok (if rows.isEmpty then db else insertLineups db rows, log)

/-- The `for idx, match in enumerate(matches)` loop of `load_lineups`:
`match["match_id"]` is read outside the inner `try`, so its absence aborts
the rest of the pair (propagating to the per-pair handler). -/
def lineupsMatchesLoop (s3 : S3) : List Json → DB → Log → Except String (DB × Log)
  | [], db, log => .ok (db, log)
  | m :: rest, db, log =>
    match lineupsMatchStep s3 m db log with
    | .error e => .error e
    | .ok (db2, log2) => lineupsMatchesLoop s3 rest db2 log2

/-- One competition/season pair of `load_lineups`: ids read outside any
handler (fatal when absent); the match-list fetch and per-match loop run
under the per-pair `try`, whose handler logs and continues. -/
def lineupsPairStep (s3 : S3) (comp : Json) (db : DB) (log : Log) :
    Except String (DB × Log) := do
  let cid ← pyGetItem comp "competition_id"
  let sid ← pyGetItem comp "season_id"
  match s3 (matchesKey cid sid) with
  | .error e => .ok (db, log ++ [lineupsPairFailMsg cid sid e])
  | .ok mj =>
    match pyIter mj with
    | .error e => .ok (db, log ++ [lineupsPairFailMsg cid sid e])
    | .ok ms =>
      match lineupsMatchesLoop s3 ms db log with
      | .error e => .ok (db, log ++ [lineupsPairFailMsg cid sid e])
      | .ok (db2, log2) => .ok (db2, log2)

/-- The `for comp in competitions` loop of `load_lineups`. -/
def lineupsCompsLoop (s3 : S3) : List Json → DB → Log → Except String (DB × Log)
  | [], db, log => .ok (db, log)
  | comp :: rest, db, log =>
    match lineupsPairStep s3 comp db log with
    | .error e => .error e
    | .ok (db2, log2) => lineupsCompsLoop s3 rest db2 log2

/-- Result of `load_lineups` (and of `load_events`): the committed
database, the failure/warning lines printed, and the exception the job
died with, if any. -/
structure JobResult where
  db : DB
  log : Log
  err : Option String

/-- `load_lineups`: one connection for the whole job.  Lineup inserts never
abort the transaction, so the job commits unless an uncaught exception
(manifest fetch failure or manifest record with missing ids) escapes the
`with` block, in which case everything — including all lineup rows inserted
so far — rolls back. -/
def loadLineups (s3 : S3) (db : DB) : JobResult :=
  let db0 := createLineupsTable db
  match s3 competitionsKey with
  | .error e => ⟨db, [], some e⟩
  | .ok comps =>
    match pyIter comps with
    | .error e => ⟨db, [], some e⟩
    | .ok cs =>
      match lineupsCompsLoop s3 cs db0 [] with
      | .error e => ⟨db, [], some e⟩
      | .ok (db2, log) => ⟨db2, log, none⟩

/-- The event-row projection of `load_single_match` (and, identically, of
the trailing sequential section): `event.get("index")`,
`event.get("timestamp")`, `event.get("type", {}).get("name")`.  A record
whose `type` member is present but not a dict (for instance `null`) makes
the second `.get` raise `AttributeError`. -/
def normalizeEvent (mid ev : Json) : Except String EvTuple := do
  let idx ← pyGetDefault ev "index" .null
  let ts ← pyGetDefault ev "timestamp" .null
  let tobj ← pyGetDefault ev "type" (.obj [])
  let tname ← pyGetDefault tobj "name" .null
  .ok ⟨mid, idx, ts, tname⟩

/-- The `rows_to_insert` comprehension of `load_single_match`: every event
of the fetched stream is normalized, in order; no record is skipped and a
failing record raises out of the whole comprehension. -/
def normalizeEvents (mid : Json) : List Json → Except String (List EvTuple)
  | [] => .ok []
  | ev :: rest => do
    let t ← normalizeEvent mid ev
    let ts ← normalizeEvents mid rest
    .ok (t :: ts)

/-- The resolved job list entry of the events job: the
`(comp_id, season_id, match)` tuple appended to `match_list`. -/
abbrev MatchInfo := Json × Json × Json

/-- `load_single_match`, run by one pool worker on its own connection:
`match["match_id"]` is read before the `try`, so its absence raises into
the executor (silently swallowed — the match is skipped without a log);
inside the `try`, a fetch or normalization failure is caught and logged,
skipping the match; on success the batch is written with
`ON CONFLICT DO NOTHING` (which cannot raise) and the shared counter is
incremented under `progress_lock`. -/
def loadSingleMatch (s3 : S3) (mi : MatchInfo) (st : DB × Nat) : DB × Nat :=
  match pyGetItem mi.2.2 "match_id" with
  | .error _ => st
  | .ok mid =>
    match s3 (eventsKey mid) with
    | .error _ => st
    | .ok data =>
      match pyIter data with
      | .error _ => st
      | .ok evs =>
        match normalizeEvents mid evs with
        | .error _ => st
        | .ok rows =>
          (if rows.isEmpty then st.1 else insertEventBatchIgnore st.1 rows,
           st.2 + 1)

/-- Whether one worker's match reaches the counter increment (no fetch or
normalization failure).  This is independent of the database state. -/
def matchOk (s3 : S3) (mi : MatchInfo) : Bool :=
  match pyGetItem mi.2.2 "match_id" with
  | .error _ => false
  | .ok mid =>
    match s3 (eventsKey mid) with
    | .error _ => false
    | .ok data =>
      match pyIter data with
      | .error _ => false
      | .ok evs =>
        match normalizeEvents mid evs with
        | .error _ => false
        | .ok _ => true

/-- The pool width of the events job (`max_workers = 8`). -/
def maxWorkers : Nat := 8

/-- The concurrent section of `load_events`: the pool's workers each run
`load_single_match`; counter increments and batch statements are atomic
(the counter by `progress_lock`, the statements by the database), so one
execution of the pool is one serialization `order` of the per-match
actions.  Different schedules are different permutations of the resolved
job list. -/
def poolRun (s3 : S3) (order : List MatchInfo) (st : DB × Nat) : DB × Nat :=
  order.foldl (fun st mi => loadSingleMatch s3 mi st) st

/-- The warning `load_events` prints when one pair's match list cannot be
read during job-list resolution. -/
def resolveWarnMsg (cid sid : Json) (e : String) : String :=
  "Failed to read matches for comp " ++ pyStr cid ++ ", season " ++ pyStr sid ++ ": " ++ e

/-- Job-list resolution of `load_events`: for every manifest pair, fetch
the match list; a failing fetch logs a warning and contributes nothing;
a pair with missing ids raises (uncaught, fatal).  Produces the flat,
order-preserving `match_list`. -/
def resolveMatchList (s3 : S3) : List Json → Log × Except String (List MatchInfo)
  | [] => ([], .ok [])
  | comp :: rest =>
    match pyGetItem comp "competition_id" with
    | .error e => ([], .error e)
    | .ok cid =>
      match pyGetItem comp "season_id" with
      | .error e => ([], .error e)
      | .ok sid =>
        match s3 (matchesKey cid sid) with
        | .error e =>
          let (log, r) := resolveMatchList s3 rest
          (resolveWarnMsg cid sid e :: log, r)
        | .ok mj =>
          match pyIter mj with
          | .error e =>
            let (log, r) := resolveMatchList s3 rest
            (resolveWarnMsg cid sid e :: log, r)
          | .ok ms =>
            let (log, r) := resolveMatchList s3 rest
            (log,
             match r with
             | .error e => .error e
             | .ok tail => .ok (ms.map (fun m => (cid, sid, m)) ++ tail))

/-- The failure line printed by the per-competition handler of the trailing
sequential section: `f"Failed to load events for match {match_id}: {e}"`. -/
def eventsFailMsg (mid : Json) (e : String) : String :=
  "Failed to load events for match " ++ pyStr mid ++ ": " ++ e

/-- Traversal state of the trailing sequential section of `load_events`:
the connection, plus the latest value bound to the Python variable
`match_id` (its handler interpolates `match_id`, which raises `NameError`
when no match id was ever bound). -/
structure BState where
  conn : Conn
  lastMid : Option Json

/-- Outcome of a `try` block of the trailing sequential section. -/
inductive BRes where
  | fine (st : BState)
  | exn (st : BState) (msg : String)

/-- The `for event in data` loop of the trailing sequential section: each
event is normalized and written with a plain `INSERT` (no conflict
clause); a `UniqueViolation` aborts the transaction and raises. -/
def seqEventsLoop (mid : Json) : List Json → BState → BRes
  | [], st => .fine st
  | ev :: rest, st =>
    match normalizeEvent mid ev with
    | .error e => .exn st e
    | .ok t =>
      match connExec st.conn (fun db => insertEventPlain db t) with
      | .fine c2 => seqEventsLoop mid rest ⟨c2, st.lastMid⟩
      | .exn c2 e => .exn ⟨c2, st.lastMid⟩ e

/-- One match of the trailing sequential section: bind `match_id`, fetch
the event resource, insert every event. -/
def seqMatchStep (s3 : S3) (m : Json) (st : BState) : BRes :=
  match pyGetItem m "match_id" with
  | .error e => .exn st e
  | .ok mid =>
    let st : BState := ⟨st.conn, some mid⟩
    match s3 (eventsKey mid) with
    | .error e => .exn st e
    | .ok data =>
      match pyIter data with
      | .error e => .exn st e
      | .ok evs => seqEventsLoop mid evs st

/-- The `for match in matches` loop of the trailing sequential section:
no per-match handler, so the first exception aborts the pair. -/
def seqMatchesLoop (s3 : S3) : List Json → BState → BRes
  | [], st => .fine st
  | m :: rest, st =>
    match seqMatchStep s3 m st with
    | .fine st2 => seqMatchesLoop s3 rest st2
    | .exn st2 e => .exn st2 e

/-- One competition of the trailing sequential section: ids are read
outside the `try` (fatal when absent); the `try` covers the match-list
fetch and the match loop; its handler prints
`f"Failed to load events for match {match_id}: {e}"`, which raises
`NameError` when `match_id` has never been bound. -/
def seqCompStep (s3 : S3) (comp : Json) (st : BState) (log : Log) :
    Except String (BState × Log) := do
  let cid ← pyGetItem comp "competition_id"
  let sid ← pyGetItem comp "season_id"
  let handle : BState → String → Except String (BState × Log) := fun st2 e =>
    match st2.lastMid with
    | none => .error "NameError"
    | some mid => .ok (st2, log ++ [eventsFailMsg mid e])
  match s3 (matchesKey cid sid) with
  | .error e => handle st e
  | .ok mj =>
    match pyIter mj with
    | .error e => handle st e
    | .ok ms =>
      match seqMatchesLoop s3 ms st with
      | .fine st2 => .ok (st2, log)
      | .exn st2 e => handle st2 e

/-- The `for comp_index, comp in enumerate(competitions)` loop of the
trailing sequential section. -/
def seqCompsLoop (s3 : S3) : List Json → BState → Log → Log × Except String BState
  | [], st, log => (log, .ok st)
  | comp :: rest, st, log =>
    match seqCompStep s3 comp st log with
    | .error e => (log, .error e)
    | .ok (st2, log2) => seqCompsLoop s3 rest st2 log2

/-- The whole trailing sequential section of `load_events` (the code after
the pool's `with` block): a fresh connection, the constraint-less
`CREATE TABLE IF NOT EXISTS events` (a no-op, the table exists), a fresh
manifest fetch, and the sequential per-competition loop with plain
inserts.  Commit on clean exit, rollback when the transaction was aborted
or an uncaught exception escapes. -/
def seqTail (s3 : S3) (db : DB) : JobResult :=
  let c0 : Conn := ⟨createEventsTablePlain db, false⟩
  match s3 competitionsKey with
  | .error e => ⟨db, [], some e⟩
  | .ok comps =>
    match pyIter comps with
    | .error e => ⟨db, [], some e⟩
    | .ok cs =>
      match seqCompsLoop s3 cs ⟨c0, none⟩ [] with
      | (log, .error e) => ⟨db, log, some e⟩
      | (log, .ok st) => ⟨commitConn db st.conn, log, none⟩

/-- Result of one full run of the events job. -/
structure EventsResult where
  db : DB
  counter : Nat
  log : Log
  err : Option String

/-- `load_events`: create the `events` table with its uniqueness constraint
(own connection, committed first), fetch the manifest, resolve the flat
job list, run the worker pool (under serialization `sched` of the job
list), then fall through into the trailing sequential section of the
function.  `sched` models the scheduling order of the pool's workers; a
sequential single-worker execution is `sched = id`. -/
def loadEvents (s3 : S3) (sched : List MatchInfo → List MatchInfo) (db : DB) :
    EventsResult :=
  let db1 := createEventsTableUnique db
  match s3 competitionsKey with
  | .error e => ⟨db1, 0, [], some e⟩
  | .ok comps =>
    match pyIter comps with
    | .error e => ⟨db1, 0, [], some e⟩
    | .ok cs =>
      match resolveMatchList s3 cs with
      | (rlog, .error e) => ⟨db1, 0, rlog, some e⟩
      | (rlog, .ok ml) =>
        let (db2, ctr) := poolRun s3 (sched ml) (db1, 0)
        let tail := seqTail s3 db2
        ⟨tail.db, ctr, rlog ++ tail.log, tail.err⟩

/-- The four job types of the CLI selector (`--type` choices). -/
inductive JobType where
  | competitions
  | matchesJob
  | lineups
  | events
deriving DecidableEq

/-- An externally visible I/O action of the process. -/
inductive IOEvent where
  | paramStoreGet (name : String)
  | objectStoreGet (key : String)
  | dbConnect
deriving DecidableEq

/-- The process environment variables the module reads. -/
structure Env where
  database_url : Option String
  s3_bucket_name : Option String

/-- The module-level secret resolution that runs at import time, before
`argparse` is even constructed: `os.getenv("DATABASE_URL") or
get_ssm_param("/football/DATABASE_URL")`, and likewise for
`S3_BUCKET_NAME`.  Each missing environment variable triggers one
parameter-store fetch. -/
def moduleInit (env : Env) : List IOEvent :=
  (match env.database_url with
   | some _ => []
   | none => [.paramStoreGet "/football/DATABASE_URL"]) ++
  (match env.s3_bucket_name with
   | some _ => []
   | none => [.paramStoreGet "/football/S3_BUCKET_NAME"])

/-- `argparse` validation of one `--type` value against
`choices=["competitions", "matches", "lineups", "events"]`. -/
def parseTypeArg (v : String) : Option JobType :=
  if v = "competitions" then some .competitions
  else if v = "matches" then some .matchesJob
  else if v = "lineups" then some .lineups
  else if v = "events" then some .events
  else none

/-- The CLI of the `__main__` block: no argument defaults to
`competitions`; `--type v` is validated against the closed choice set;
an invalid value makes `parse_args` exit before any job dispatch. -/
def parseArgs : List String → Option JobType
  | [] => some .competitions
  | ["--type", v] => parseTypeArg v
  | _ => none

/-- The I/O trace of one process run: module import (secret resolution)
always happens first; only then does `parse_args` run, and only an
accepted job type dispatches a job (whose own I/O is abstracted by
`jobEffects`). -/
def cliTrace (env : Env) (argv : List String) (jobEffects : JobType → List IOEvent) :
    List IOEvent :=
  moduleInit env ++
  (match parseArgs argv with
   | some j => jobEffects j
   | none => [])

/-- One manifest record of a structured source data set. -/
structure CompSrc where
  competition_id : Int
  season_id : Int
  country_name : String
  competition_name : String
  season_name : String

/-- One match record of a structured source data set. -/
structure MatchSrc where
  match_id : Int
  match_date : String
  home : String
  away : String

/-- One event record of a structured source data set: a non-null integer
`index`, a timestamp string, and an optional `type` object carrying a
name. -/
structure EventSrc where
  index : Int
  timestamp : String
  tname : Option String

/-- The JSON document of one structured manifest record. -/
def CompSrc.json (c : CompSrc) : Json :=
  .obj [("competition_id", .i c.competition_id),
        ("season_id", .i c.season_id),
        ("country_name", .s c.country_name),
        ("competition_name", .s c.competition_name),
        ("season_name", .s c.season_name)]

/-- The JSON document of one structured match record. -/
def MatchSrc.json (m : MatchSrc) : Json :=
  .obj [("match_id", .i m.match_id),
        ("match_date", .s m.match_date),
        ("home_team", .obj [("home_team_name", .s m.home)]),
        ("away_team", .obj [("away_team_name", .s m.away)])]

/-- The JSON document of one structured event record. -/
def EventSrc.json (e : EventSrc) : Json :=
  .obj ([("index", .i e.index), ("timestamp", .s e.timestamp)] ++
        (match e.tname with
         | some n => [("type", .obj [("name", .s n)])]
         | none => []))

/-- A fixed, structured source data set: the manifest, a match list per
competition/season pair (`none` = resource missing), and an event list per
match id (`none` = resource missing).  This is the well-typed shape of the
upstream open-data layout. -/
structure Dataset where
  comps : List CompSrc
  matchesOf : Int → Int → Option (List MatchSrc)
  eventsOf : Int → Option (List EventSrc)

/-- All match ids reachable from the manifest of a data set. -/
def Dataset.mids (d : Dataset) : List Int :=
  d.comps.flatMap
    (fun c => ((d.matchesOf c.competition_id c.season_id).getD []).map
      (fun m => m.match_id))

/-- The object store serving a structured data set. -/
def s3Of (d : Dataset) : S3 := fun key =>
  if key = competitionsKey then .ok (.arr (d.comps.map CompSrc.json))
  else
    match d.comps.find? (fun c => key = matchesKey (.i c.competition_id) (.i c.season_id)) with
    | some c =>
      match d.matchesOf c.competition_id c.season_id with
      | some ms => .ok (.arr (ms.map MatchSrc.json))
      | none => .error "NoSuchKey"
    | none =>
      match (d.mids).find? (fun mid => key = eventsKey (.i mid)) with
      | some mid =>
        match d.eventsOf mid with
        | some es => .ok (.arr (es.map EventSrc.json))
        | none => .error "NoSuchKey"
      | none => .error "NoSuchKey"

/-- Key-separation of a structured data set: distinct pairs and distinct
match ids have distinct resource keys, and the three key families do not
collide.  This holds for every actual data set (keys embed decimal ids at
distinct path positions) and is decidable for each concrete one. -/
def Dataset.wf (d : Dataset) : Prop :=
  (∀ c ∈ d.comps, ∀ c2 ∈ d.comps,
     matchesKey (.i c.competition_id) (.i c.season_id) =
       matchesKey (.i c2.competition_id) (.i c2.season_id) →
     c.competition_id = c2.competition_id ∧ c.season_id = c2.season_id) ∧
  (∀ mid ∈ d.mids, ∀ mid2 ∈ d.mids,
     eventsKey (.i mid) = eventsKey (.i mid2) → mid = mid2) ∧
  (∀ c ∈ d.comps,
     matchesKey (.i c.competition_id) (.i c.season_id) ≠ competitionsKey) ∧
  (∀ mid ∈ d.mids, eventsKey (.i mid) ≠ competitionsKey) ∧
  (∀ c ∈ d.comps, ∀ mid ∈ d.mids,
     matchesKey (.i c.competition_id) (.i c.season_id) ≠ eventsKey (.i mid))

instance (d : Dataset) : Decidable d.wf := by
  unfold Dataset.wf
  infer_instance

/-- The job-list entries a sub-list of manifest records resolves to. -/
def dsMlOf (d : Dataset) (l : List CompSrc) : List MatchInfo :=
  l.flatMap (fun c =>
    match d.matchesOf c.competition_id c.season_id with
    | some ms =>
      ms.map (fun m => (.i c.competition_id, .i c.season_id, MatchSrc.json m))
    | none => [])

/-- The flat `match_list` the events job resolves from a structured data
set: source order, skipping pairs whose match-list resource is missing. -/
def dsMl (d : Dataset) : List MatchInfo := dsMlOf d d.comps

/-- The warnings a sub-list of manifest records produces during resolution. -/
def dsWarnLogOf (d : Dataset) (l : List CompSrc) : Log :=
  l.filterMap (fun c =>
    match d.matchesOf c.competition_id c.season_id with
    | some _ => none
    | none =>
      some (resolveWarnMsg (.i c.competition_id) (.i c.season_id) "NoSuchKey"))

/-- The warnings resolution prints for a structured data set: one per pair
whose match-list resource is missing. -/
def dsWarnLog (d : Dataset) : Log := dsWarnLogOf d d.comps

/-- Whether some `matches` row already carries the given integer id. -/
def midPresent (db : DB) (n : Int) : Bool :=
  db.matchesTbl.any (fun x => sqlEq x.match_id (.i n))

/-- Every match id of the data set is present in the `matches` table. -/
def matchIdsPresent (d : Dataset) (db : DB) : Prop :=
  ∀ c ∈ d.comps, ∀ ms, d.matchesOf c.competition_id c.season_id = some ms →
    ∀ m ∈ ms, midPresent db m.match_id = true

/-- Every `(match_id, index)` key of the data set is present in the
`events` table. -/
def eventKeysPresent (d : Dataset) (db : DB) : Prop :=
  ∀ mid ∈ d.mids, ∀ es, d.eventsOf mid = some es →
    ∀ e ∈ es, keyPresent db (.i mid) (.i e.index) = true

/-- The JSON value the event projection stores in the `type` column for a
structured event record. -/
def tyOf : Option String → Json
  | some n => .s n
  | none => .null

/-- The insert tuple the event projection produces for a structured event
record of match `mj`. -/
def evTupleOf (mj : Json) (e : EventSrc) : EvTuple :=
  ⟨mj, .i e.index, .s e.timestamp, tyOf e.tname⟩

/-- The value columns of a stored event row (everything except the serial
id). -/
def evParts (r : EventRow) : Json × Json × Json × Json :=
  (r.match_id, r.index, r.timestamp, r.type)

/-- The value columns of an event insert tuple. -/
def tParts (t : EvTuple) : Json × Json × Json × Json :=
  (t.m, t.idx, t.ts, t.ty)

/-- The lineup rows one match contributes to the `lineups` table: its
normalized batch when every step succeeds, nothing when any step fails
(the per-match handler catches and skips the whole match). -/
def lineupContrib (s3 : S3) (m : Json) : List LineupRow :=
  match pyGetItem m "match_id" with
  | .error _ => []
  | .ok mid =>
    match s3 (lineupsKey mid) with
    | .error _ => []
    | .ok data =>
      match pyIter data with
      | .error _ => []
      | .ok teams =>
        match lineupMatchRows mid teams with
        | .error _ => []
        | .ok rows => rows

/-- The closed choice set of the CLI. -/
def cliChoices : List String := ["competitions", "matches", "lineups", "events"]

/-- A one-competition, one-match, one-event source: the single event has
index 0. -/
def cex1S3 : S3 := fun key =>
  if key = competitionsKey then
    .ok (.arr [.obj [("competition_id", .i 1), ("season_id", .i 1),
                     ("country_name", .s "X"), ("competition_name", .s "L"),
                     ("season_name", .s "S")]])
  else if key = matchesKey (.i 1) (.i 1) then
    .ok (.arr [.obj [("match_id", .i 10), ("match_date", .s "2020-01-01"),
                     ("home_team", .obj [("home_team_name", .s "H")]),
                     ("away_team", .obj [("away_team_name", .s "A")])]])
  else if key = eventsKey (.i 10) then
    .ok (.arr [.obj [("index", .i 0), ("timestamp", .s "00:00:00.000"),
                     ("type", .obj [("name", .s "Pass")])]])
  else .error "NoSuchKey"

/-- A one-competition, one-match source whose match has two events: one
with index 0 and one with no `index` member at all. -/
def cex2S3 : S3 := fun key =>
  if key = competitionsKey then
    .ok (.arr [.obj [("competition_id", .i 1), ("season_id", .i 1)]])
  else if key = matchesKey (.i 1) (.i 1) then
    .ok (.arr [.obj [("match_id", .i 10)]])
  else if key = eventsKey (.i 10) then
    .ok (.arr [.obj [("index", .i 0), ("timestamp", .s "00:00:00.000")],
               .obj [("timestamp", .s "00:00:01.000")]])
  else .error "NoSuchKey"

/-- The committed database of one events-job run. -/
def eventsRunDB (s3 : S3) (sched : List MatchInfo → List MatchInfo) (db : DB) : DB :=
  (loadEvents s3 sched db).db

/-- A one-competition source with two matches (ids 10 and 11), each with
one event. -/
def cex3S3 : S3 := fun key =>
  if key = competitionsKey then
    .ok (.arr [.obj [("competition_id", .i 1), ("season_id", .i 1)]])
  else if key = matchesKey (.i 1) (.i 1) then
    .ok (.arr [.obj [("match_id", .i 10)], .obj [("match_id", .i 11)]])
  else if key = eventsKey (.i 10) then
    .ok (.arr [.obj [("index", .i 0)]])
  else if key = eventsKey (.i 11) then
    .ok (.arr [.obj [("index", .i 0)]])
  else .error "NoSuchKey"

/-- A manifest with one complete record followed by one record missing
`country_name`. -/
def cex5S3 : S3 := fun key =>
  if key = competitionsKey then
    .ok (.arr [.obj [("competition_id", .i 1), ("season_id", .i 1),
                     ("country_name", .s "X"), ("competition_name", .s "L"),
                     ("season_name", .s "S")],
               .obj [("competition_id", .i 2), ("season_id", .i 2),
                     ("competition_name", .s "M"), ("season_name", .s "T")]])
  else .error "NoSuchKey"

/-- A one-competition source with two matches: match 10's lineup has a
complete team "A" (player "P1") followed by a team with no `team_name`;
match 11's lineup has a single complete team "C" (player "P3"). -/
def cex6S3 : S3 := fun key =>
  if key = competitionsKey then
    .ok (.arr [.obj [("competition_id", .i 1), ("season_id", .i 1)]])
  else if key = matchesKey (.i 1) (.i 1) then
    .ok (.arr [.obj [("match_id", .i 10)], .obj [("match_id", .i 11)]])
  else if key = lineupsKey (.i 10) then
    .ok (.arr [.obj [("team_name", .s "A"),
                     ("lineup", .arr [.obj [("player_name", .s "P1")]])],
               .obj [("lineup", .arr [.obj [("player_name", .s "P2")]])]])
  else if key = lineupsKey (.i 11) then
    .ok (.arr [.obj [("team_name", .s "C"),
                     ("lineup", .arr [.obj [("player_name", .s "P3")]])]])
  else .error "NoSuchKey"

/-- A three-pair manifest source where only the middle pair's match list
is missing: pair (1,1) has match 10, pair (2,2) has nothing, pair (3,3)
has match 30. -/
def cex7S3 : S3 := fun key =>
  if key = competitionsKey then
    .ok (.arr [.obj [("competition_id", .i 1), ("season_id", .i 1)],
               .obj [("competition_id", .i 2), ("season_id", .i 2)],
               .obj [("competition_id", .i 3), ("season_id", .i 3)]])
  else if key = matchesKey (.i 1) (.i 1) then
    .ok (.arr [.obj [("match_id", .i 10)]])
  else if key = matchesKey (.i 3) (.i 3) then
    .ok (.arr [.obj [("match_id", .i 30)]])
  else .error "NoSuchKey"

/-- A single-match source whose event stream has indexes `[0, 1, 2, 5, 6]`
(a gap at 3 and 4), in that order. -/
def cex8S3 : S3 := fun key =>
  if key = eventsKey (.i 10) then
    .ok (.arr [.obj [("index", .i 0)], .obj [("index", .i 1)],
               .obj [("index", .i 2)], .obj [("index", .i 5)],
               .obj [("index", .i 6)]])
  else .error "NoSuchKey"

/-- A two-record manifest, both records complete. -/
def cex10S3 : S3 := fun key =>
  if key = competitionsKey then
    .ok (.arr [.obj [("competition_id", .i 1), ("season_id", .i 1),
                     ("country_name", .s "X"), ("competition_name", .s "L"),
                     ("season_name", .s "S")],
               .obj [("competition_id", .i 1), ("season_id", .i 2),
                     ("country_name", .s "X"), ("competition_name", .s "L"),
                     ("season_name", .s "T")]])
  else .error "NoSuchKey"

/-- A small structured data set: two pairs, the second without a match
list; pair (1,1) has matches 10 (two events) and 11 (one event). -/
def dsW : Dataset :=
  { comps := [⟨1, 1, "X", "L", "S"⟩, ⟨2, 2, "X", "L", "T"⟩],
    matchesOf := fun c s =>
      if c = 1 ∧ s = 1 then
        some [⟨10, "2020-01-01", "H", "A"⟩, ⟨11, "2020-01-02", "H", "A"⟩]
      else none,
    eventsOf := fun mid =>
      if mid = 10 then some [⟨0, "00:00:00.000", some "Pass"⟩, ⟨1, "00:00:01.000", none⟩]
      else if mid = 11 then some [⟨0, "00:00:00.000", some "Shot"⟩]
      else none }

/-- The `matches` row the matches job builds for a structured match record
under its pair. -/
def matchRowOf (c : CompSrc) (m : MatchSrc) : MatchRow :=
  ⟨.i m.match_id, .i c.competition_id, .i c.season_id,
   .s m.match_date, .s m.home, .s m.away⟩

/-- The connection's pending database after a block of the trailing
sequential section, whether it finished or raised. -/
def bresDB : BRes → DB
  | .fine st => st.conn.db
  | .exn st _ => st.conn.db

/-- C1.  The claim reads: every insert of event rows issued by the events
job is conflict-tolerant — on an existing `(match_id, index)` key it keeps
the existing row and never errors.  The code's `load_events` falls through
(after printing its final "Done" line) into a leftover sequential section
that re-creates the table without the constraint and issues plain
`INSERT INTO events` statements with no `ON CONFLICT` clause.  On the
single-match source `cex1S3`, whose one event was just written by the
concurrent section, that plain insert raises `UniqueViolation`; the
per-competition handler logs the failure and the aborted transaction rolls
back.  The claim describes the evident intent; the trailing section is the
slip. -/
theorem c1_events_job_plain_insert_errors :
    (loadEvents cex1S3 id DB.empty).log
        = [eventsFailMsg (.i 10) "UniqueViolation"] ∧
      (loadEvents cex1S3 id DB.empty).db.events.length = 1 := by
  constructor
  · decide
  · decide

/-- C4 (counterexample).  The claim says event normalization is never a
hard failure.  On the raw event record `{"index": 1, "type": null}` the
projection `event.get("type", {}).get("name")` receives the stored `null`
(Python `None`, not the `{}` default) and raises `AttributeError`: a hard
failure (which then makes the whole match's batch be skipped). -/
theorem c4_counterexample_type_null_hard_failure :
    normalizeEvent (.i 10) (.obj [("index", .i 1), ("type", .null)])
      = .error "AttributeError" := rfl

/-- C4 (amended).  For every raw event record that is a JSON object whose
`type` member, when present, is itself an object, normalization projects
`index`, `timestamp` and the nested type name, substituting `null` for any
missing piece — the record is never skipped and never a hard failure.  (A
record whose `type` member is present but not an object is a hard
failure, per the counterexample.) -/
theorem c4_amended_normalization_projection (mid : Json)
    (kvs : List (String × Json))
    (hty : kvs.lookup "type" = none ∨ ∃ t, kvs.lookup "type" = some (.obj t)) :
    normalizeEvent mid (.obj kvs)
      = .ok ⟨mid, (kvs.lookup "index").getD .null,
             (kvs.lookup "timestamp").getD .null,
             (match kvs.lookup "type" with
              | some (.obj t) => (t.lookup "name").getD .null
              | _ => .null)⟩ := by
  unfold normalizeEvent pyGetDefault
  rcases hty with h | ⟨t, h⟩ <;> simp only [h, Option.getD_some, Option.getD_none] <;> rfl

/-- Witness for C4 (amended): the spec's own null-safety test — the record
`{"index": 1}` (no `type` key) normalizes to a row with a null type, not
an error. -/
theorem c4_amended_witness :
    normalizeEvent (.i 7) (.obj [("index", .i 1)])
      = .ok ⟨.i 7, .i 1, .null, .null⟩ :=
  c4_amended_normalization_projection (.i 7) [("index", .i 1)] (Or.inl rfl)

/-- C9 (counterexample).  The claim says an unknown job type is rejected
before any I/O — object store, parameter store or database — occurs.  But
secret resolution runs at module import, before `argparse` is constructed:
in an environment without `DATABASE_URL`, the process performs a
parameter-store fetch and only then rejects `--type bogus`. -/
theorem c9_counterexample_param_store_io_before_reject :
    parseArgs ["--type", "bogus"] = none ∧
      cliTrace ⟨none, some "b"⟩ ["--type", "bogus"] (fun _ => [])
        = [.paramStoreGet "/football/DATABASE_URL"] := by
  constructor
  · decide
  · decide

/-- C9 (amended).  The CLI accepts exactly one job type from the closed
set `{competitions, matches, lineups, events}`, defaults to `competitions`
when none is given, and rejects any unknown value before any job dispatch
(hence before any object-store or database I/O); but module import first
resolves secrets, which performs parameter-store I/O exactly when
`DATABASE_URL` or `S3_BUCKET_NAME` is not set in the environment, so with
both environment variables set — and only then — rejection precedes all
I/O. -/
theorem c9_amended_cli_reject :
    parseArgs [] = some .competitions ∧
    (∀ v j, parseTypeArg v = some j → v ∈ cliChoices) ∧
    (∀ v ∈ cliChoices, ∃ j, parseTypeArg v = some j) ∧
    (∀ v, v ∉ cliChoices → parseArgs ["--type", v] = none) ∧
    (∀ env argv jobEffects, parseArgs argv = none →
      cliTrace env argv jobEffects = moduleInit env) ∧
    (∀ env : Env, env.database_url.isSome → env.s3_bucket_name.isSome →
      moduleInit env = []) := by
  refine ⟨rfl, ?_, ?_, ?_, ?_, ?_⟩
  · intro v j h
    unfold parseTypeArg at h
    unfold cliChoices
    by_cases h1 : v = "competitions"
    · simp [h1]
    by_cases h2 : v = "matches"
    · simp [h2]
    by_cases h3 : v = "lineups"
    · simp [h3]
    by_cases h4 : v = "events"
    · simp [h4]
    · rw [if_neg h1, if_neg h2, if_neg h3, if_neg h4] at h
      exact absurd h (by simp)
  · intro v hv
    unfold cliChoices at hv
    rcases List.mem_cons.mp hv with h | hv
    · subst h; exact ⟨.competitions, rfl⟩
    rcases List.mem_cons.mp hv with h | hv
    · subst h; exact ⟨.matchesJob, rfl⟩
    rcases List.mem_cons.mp hv with h | hv
    · subst h; exact ⟨.lineups, rfl⟩
    rcases List.mem_cons.mp hv with h | hv
    · subst h; exact ⟨.events, rfl⟩
    · simp at hv
  · intro v hv
    unfold parseArgs parseTypeArg
    unfold cliChoices at hv
    simp only [List.mem_cons, List.mem_singleton] at hv
    push_neg at hv
    obtain ⟨h1, h2, h3, h4⟩ := hv
    simp [h1, h2, h3, h4]
  · intro env argv jobEffects h
    unfold cliTrace
    rw [h]
    simp
  · intro env h1 h2
    unfold moduleInit
    obtain ⟨u, hu⟩ := Option.isSome_iff_exists.mp h1
    obtain ⟨w, hw⟩ := Option.isSome_iff_exists.mp h2
    rw [hu, hw]
    rfl

/-- Witness for C9 (amended): concrete uses of each conjunct — the default,
acceptance of "events", rejection of "bogus", and an I/O-free trace for a
rejected run under a fully set environment. -/
theorem c9_amended_witness :
    parseArgs [] = some .competitions ∧
      (∃ j, parseTypeArg "events" = some j) ∧
      parseArgs ["--type", "bogus"] = none ∧
      cliTrace ⟨some "u", some "w"⟩ ["--type", "bogus"] (fun _ => [.dbConnect])
        = [] := by
  refine ⟨c9_amended_cli_reject.1, ?_, ?_, ?_⟩
  · exact c9_amended_cli_reject.2.2.1 "events" (by decide)
  · exact c9_amended_cli_reject.2.2.2.1 "bogus" (by decide)
  · rw [c9_amended_cli_reject.2.2.2.2.1 ⟨some "u", some "w"⟩ ["--type", "bogus"]
        (fun _ => [.dbConnect]) (c9_amended_cli_reject.2.2.2.1 "bogus" (by decide))]
    exact c9_amended_cli_reject.2.2.2.2.2 ⟨some "u", some "w"⟩ rfl rfl

theorem compLoop_error_of_bad (rows : List Json)
    (hbad : ∃ r ∈ rows, ∃ e, normalizeCompRow r = .error e) :
    ∀ db : DB, ∃ e2, compLoop rows db = .error e2 := by
  induction rows with
  | nil => obtain ⟨r, hr, _⟩ := hbad; simp at hr
  | cons r rest ih =>
    intro db
    obtain ⟨r2, hr2, e, he⟩ := hbad
    unfold compLoop
    cases hn : normalizeCompRow r with
    | error e3 => exact ⟨e3, rfl⟩
    | ok cr =>
      rcases List.mem_cons.mp hr2 with h | h
      · subst h; rw [hn] at he; exact absurd he (by simp)
      · exact ih ⟨r2, h, e, he⟩ (insertCompetition db cr)

theorem compLoop_ok_length (rows : List Json)
    (hok : ∀ r ∈ rows, ∃ cr, normalizeCompRow r = .ok cr) :
    ∀ db : DB, ∃ db2, compLoop rows db = .ok db2 ∧
      db2.competitions.length = db.competitions.length + rows.length := by
  induction rows with
  | nil => intro db; exact ⟨db, rfl, by simp [compLoop]⟩
  | cons r rest ih =>
    intro db
    obtain ⟨cr, hcr⟩ := hok r (List.mem_cons_self r rest)
    obtain ⟨db2, h2, hlen⟩ :=
      ih (fun r2 h => hok r2 (List.mem_cons_of_mem r h)) (insertCompetition db cr)
    refine ⟨db2, ?_, ?_⟩
    · unfold compLoop; rw [hcr]; exact h2
    · rw [hlen]; simp [insertCompetition]; omega

/-- C5 (counterexample).  The claim says a manifest record missing a
required field is skipped while all other records are still written.  On
the manifest `cex5S3` — one complete record, then one missing
`country_name` — the bare `row["country_name"]` raises `KeyError` with no
per-record handler: the job dies and the escaping exception rolls the
whole transaction back, so even the complete first record is not written
(the returned store is exactly the unchanged input store). -/
theorem c5_counterexample_missing_field_aborts_job :
    loadCompetitions cex5S3 DB.empty = (DB.empty, some "KeyError") := rfl

/-- C5 (amended).  A manifest record lacking any of the five required
fields makes the competitions job fail with an uncaught exception, and the
transaction rollback discards every record of the manifest — nothing is
written, rather than the bad record alone being skipped. -/
theorem c5_amended_missing_field_fatal (s3 : S3) (data : Json)
    (rows : List Json) (db : DB)
    (hm : s3 competitionsKey = .ok data) (hi : pyIter data = .ok rows)
    (hbad : ∃ r ∈ rows, ∃ e, normalizeCompRow r = .error e) :
    ∃ e2, loadCompetitions s3 db = (db, some e2) := by
  obtain ⟨e2, h2⟩ := compLoop_error_of_bad rows hbad (createCompetitionsTable db)
  refine ⟨e2, ?_⟩
  simp only [loadCompetitions, hm, hi, h2]

/-- Witness for C5 (amended), on the concrete manifest `cex5S3`. -/
theorem c5_amended_witness :
    ∃ e2, loadCompetitions cex5S3 DB.empty = (DB.empty, some e2) :=
  c5_amended_missing_field_fatal cex5S3
    (.arr [.obj [("competition_id", .i 1), ("season_id", .i 1),
                 ("country_name", .s "X"), ("competition_name", .s "L"),
                 ("season_name", .s "S")],
           .obj [("competition_id", .i 2), ("season_id", .i 2),
                 ("competition_name", .s "M"), ("season_name", .s "T")]])
    [.obj [("competition_id", .i 1), ("season_id", .i 1),
           ("country_name", .s "X"), ("competition_name", .s "L"),
           ("season_name", .s "S")],
     .obj [("competition_id", .i 2), ("season_id", .i 2),
           ("competition_name", .s "M"), ("season_name", .s "T")]]
    DB.empty rfl rfl
    ⟨.obj [("competition_id", .i 2), ("season_id", .i 2),
           ("competition_name", .s "M"), ("season_name", .s "T")],
     List.mem_cons_of_mem _ (List.mem_cons_self _ _), "KeyError", rfl⟩

/-- C10.  The `competitions` table is created with no uniqueness
constraint, so its `ON CONFLICT DO NOTHING` clause never suppresses a row:
re-running the competitions job against the same manifest appends a
duplicate row for every manifest record, doubling the row count. -/
theorem c10_competitions_rerun_duplicates (s3 : S3) (data : Json)
    (rows : List Json) (db : DB)
    (hm : s3 competitionsKey = .ok data) (hi : pyIter data = .ok rows)
    (hok : ∀ r ∈ rows, ∃ cr, normalizeCompRow r = .ok cr) :
    ∃ db1 db2, loadCompetitions s3 db = (db1, none) ∧
      loadCompetitions s3 db1 = (db2, none) ∧
      db1.competitions.length = db.competitions.length + rows.length ∧
      db2.competitions.length = db.competitions.length + 2 * rows.length := by
  obtain ⟨db1, h1, hlen1⟩ := compLoop_ok_length rows hok (createCompetitionsTable db)
  obtain ⟨db2, h2, hlen2⟩ := compLoop_ok_length rows hok (createCompetitionsTable db1)
  have hc : ∀ dbx : DB, (createCompetitionsTable dbx).competitions = dbx.competitions := by
    intro dbx; unfold createCompetitionsTable; split <;> rfl
  refine ⟨db1, db2, ?_, ?_, ?_, ?_⟩
  · simp only [loadCompetitions, hm, hi, h1]
  · simp only [loadCompetitions, hm, hi, h2]
  · rw [hlen1, hc]
  · rw [hlen2, hc, hlen1, hc]; omega

/-- Witness for C10, on the two-record manifest `cex10S3`: two rows after
one run, four after two. -/
theorem c10_witness :
    ∃ db1 db2, loadCompetitions cex10S3 DB.empty = (db1, none) ∧
      loadCompetitions cex10S3 db1 = (db2, none) ∧
      db1.competitions.length = DB.empty.competitions.length + 2 ∧
      db2.competitions.length = DB.empty.competitions.length + 2 * 2 := by
  exact c10_competitions_rerun_duplicates cex10S3
    (.arr [.obj [("competition_id", .i 1), ("season_id", .i 1),
                 ("country_name", .s "X"), ("competition_name", .s "L"),
                 ("season_name", .s "S")],
           .obj [("competition_id", .i 1), ("season_id", .i 2),
                 ("country_name", .s "X"), ("competition_name", .s "L"),
                 ("season_name", .s "T")]])
    [.obj [("competition_id", .i 1), ("season_id", .i 1),
           ("country_name", .s "X"), ("competition_name", .s "L"),
           ("season_name", .s "S")],
     .obj [("competition_id", .i 1), ("season_id", .i 2),
           ("country_name", .s "X"), ("competition_name", .s "L"),
           ("season_name", .s "T")]]
    DB.empty rfl rfl
    (by
      intro r hr
      rcases List.mem_cons.mp hr with h | hr
      · subst h; exact ⟨_, rfl⟩
      rcases List.mem_cons.mp hr with h | hr
      · subst h; exact ⟨_, rfl⟩
      · simp at hr)

theorem exceptOkBind {α β ε : Type} (a : α) (f : α → Except ε β) :
    (Except.ok a : Except ε α) >>= f = f a := rfl

theorem exceptErrorBind {α β ε : Type} (e : ε) (f : α → Except ε β) :
    (Except.error e : Except ε α) >>= f = Except.error e := rfl

theorem lineupsMatchStep_decomp (s3 : S3) (m : Json) (db : DB) (log : Log)
    (mid : Json) (hmid : pyGetItem m "match_id" = .ok mid) :
    ∃ log2, lineupsMatchStep s3 m db log
      = .ok ({ db with lineups := db.lineups ++ lineupContrib s3 m }, log2) := by
  simp only [lineupsMatchStep, lineupContrib, hmid, exceptOkBind]
  cases hs : s3 (lineupsKey mid) with
  | error e => exact ⟨log ++ [lineupsFailMsg mid e], by simp⟩
  | ok data =>
    cases hi : pyIter data with
    | error e => exact ⟨log ++ [lineupsFailMsg mid e], by simp [hi]⟩
    | ok teams =>
      cases hr : lineupMatchRows mid teams with
      | error e => exact ⟨log ++ [lineupsFailMsg mid e], by simp [hi, hr]⟩
      | ok rows =>
        refine ⟨log, ?_⟩
        cases rows with
        | nil => simp [hi, hr]
        | cons a l => simp [hi, hr, insertLineups]

theorem lineupsMatchesLoop_decomp (s3 : S3) (ms : List Json)
    (hmid : ∀ m ∈ ms, ∃ mid, pyGetItem m "match_id" = .ok mid) :
    ∀ db log, ∃ log2, lineupsMatchesLoop s3 ms db log
      = .ok ({ db with lineups := db.lineups ++ ms.flatMap (lineupContrib s3) }, log2) := by
  induction ms with
  | nil => intro db log; exact ⟨log, by simp [lineupsMatchesLoop]⟩
  | cons m rest ih =>
    intro db log
    obtain ⟨mid, hm⟩ := hmid m (List.mem_cons_self m rest)
    obtain ⟨log1, hstep⟩ := lineupsMatchStep_decomp s3 m db log mid hm
    obtain ⟨log2, hloop⟩ :=
      ih (fun m2 h => hmid m2 (List.mem_cons_of_mem m h))
        { db with lineups := db.lineups ++ lineupContrib s3 m } log1
    refine ⟨log2, ?_⟩
    simp only [lineupsMatchesLoop, hstep, hloop]
    simp [List.append_assoc]

/-- C6 (counterexample).  The claim says a team missing its name is
skipped individually, with the remaining teams and players of the same
match still written.  On `cex6S3`, match 10's lineup has a complete team
"A" (player "P1") followed by a team with no `team_name`: the `KeyError`
is caught by the per-match handler, which discards the whole batch — team
"A"'s row included.  Only match 11's row survives. -/
theorem c6_counterexample_whole_match_skipped :
    (loadLineups cex6S3 DB.empty).db.lineups = [⟨.i 11, .s "C", .s "P3"⟩] ∧
      (loadLineups cex6S3 DB.empty).log = [lineupsFailMsg (.i 10) "KeyError"] :=
  ⟨rfl, rfl⟩

/-- C6 (amended).  In lineup normalization a team or player missing its
name field causes that entire match's lineup batch to be discarded (the
match is skipped with a logged warning); other matches of the pair are
still normalized and written — each match contributes exactly
`lineupContrib`, which is its full row batch on success and nothing when
any of its teams or players is missing a name. -/
theorem c6_amended_match_scoped_skip (s3 : S3) (ms : List Json)
    (mbad : Json) (db : DB) (log : Log)
    (hmid : ∀ m ∈ ms, ∃ mid, pyGetItem m "match_id" = .ok mid)
    (hmem : mbad ∈ ms)
    (hbad : ∃ mid data teams e, pyGetItem mbad "match_id" = .ok mid ∧
       s3 (lineupsKey mid) = .ok data ∧ pyIter data = .ok teams ∧
       lineupMatchRows mid teams = .error e) :
    lineupContrib s3 mbad = [] ∧
      ∃ log2, lineupsMatchesLoop s3 ms db log
        = .ok ({ db with lineups := db.lineups ++ ms.flatMap (lineupContrib s3) },
               log2) := by
  constructor
  · obtain ⟨mid, data, teams, e, h1, h2, h3, h4⟩ := hbad
    simp only [lineupContrib, h1, h2, h3, h4]
  · exact lineupsMatchesLoop_decomp s3 ms hmid db log

/-- Witness for C6 (amended), on the concrete match list of `cex6S3`. -/
theorem c6_amended_witness :
    lineupContrib cex6S3 (.obj [("match_id", .i 10)]) = [] ∧
      ∃ log2, lineupsMatchesLoop cex6S3
          [.obj [("match_id", .i 10)], .obj [("match_id", .i 11)]] DB.empty []
        = .ok ({ DB.empty with lineups := DB.empty.lineups ++
              ([.obj [("match_id", .i 10)], .obj [("match_id", .i 11)]].flatMap
                (lineupContrib cex6S3)) }, log2) := by
  refine c6_amended_match_scoped_skip cex6S3
    [.obj [("match_id", .i 10)], .obj [("match_id", .i 11)]]
    (.obj [("match_id", .i 10)]) DB.empty []
    ?_ (List.mem_cons_self _ _)
    ⟨.i 10,
     .arr [.obj [("team_name", .s "A"),
                 ("lineup", .arr [.obj [("player_name", .s "P1")]])],
           .obj [("lineup", .arr [.obj [("player_name", .s "P2")]])]],
     [.obj [("team_name", .s "A"),
            ("lineup", .arr [.obj [("player_name", .s "P1")]])],
      .obj [("lineup", .arr [.obj [("player_name", .s "P2")]])]],
     "KeyError", rfl, rfl, rfl, rfl⟩
  intro m hm
  rcases List.mem_cons.mp hm with h | hm
  · subst h; exact ⟨.i 10, rfl⟩
  rcases List.mem_cons.mp hm with h | hm
  · subst h; exact ⟨.i 11, rfl⟩
  · simp at hm

theorem resolveMatchList_append (s3 : S3) (l1 l2 : List Json) :
    ∀ log1 ml1 log2 ml2,
      resolveMatchList s3 l1 = (log1, .ok ml1) →
      resolveMatchList s3 l2 = (log2, .ok ml2) →
      resolveMatchList s3 (l1 ++ l2) = (log1 ++ log2, .ok (ml1 ++ ml2)) := by
  induction l1 with
  | nil =>
    intro log1 ml1 log2 ml2 h1 h2
    simp only [resolveMatchList] at h1
    obtain ⟨ha, hb⟩ := Prod.mk.injEq .. ▸ h1
    cases hb
    subst ha
    simpa using h2
  | cons comp rest ih =>
    intro log1 ml1 log2 ml2 h1 h2
    rw [List.cons_append]
    cases hcid : pyGetItem comp "competition_id" with
    | error e =>
      simp only [resolveMatchList, hcid] at h1
      simp at h1
    | ok cid =>
      cases hsid : pyGetItem comp "season_id" with
      | error e =>
        simp only [resolveMatchList, hcid, hsid] at h1
        simp at h1
      | ok sid =>
        cases hrest : resolveMatchList s3 rest with
        | mk logr r =>
          cases hfetch : s3 (matchesKey cid sid) with
          | error e =>
            simp only [resolveMatchList, hcid, hsid, hfetch, hrest] at h1
            obtain ⟨ha, hb⟩ := Prod.mk.injEq .. ▸ h1
            cases r with
            | error e2 => exact absurd hb (by simp)
            | ok mlr =>
              have := ih logr mlr log2 ml2 hrest h2
              cases hb
              subst ha
              simp only [resolveMatchList, hcid, hsid, hfetch, this]
              simp
          | ok mj =>
            cases hit : pyIter mj with
            | error e =>
              simp only [resolveMatchList, hcid, hsid, hfetch, hit, hrest] at h1
              obtain ⟨ha, hb⟩ := Prod.mk.injEq .. ▸ h1
              cases r with
              | error e2 => exact absurd hb (by simp)
              | ok mlr =>
                have := ih logr mlr log2 ml2 hrest h2
                cases hb
                subst ha
                simp only [resolveMatchList, hcid, hsid, hfetch, hit, this]
                simp
            | ok ms =>
              simp only [resolveMatchList, hcid, hsid, hfetch, hit, hrest] at h1
              obtain ⟨ha, hb⟩ := Prod.mk.injEq .. ▸ h1
              cases r with
              | error e2 => exact absurd hb (by simp)
              | ok mlr =>
                have := ih logr mlr log2 ml2 hrest h2
                have hb2 : ms.map (fun m => (cid, sid, m)) ++ mlr = ml1 := by
                  simpa using hb
                subst ha
                subst hb2
                simp only [resolveMatchList, hcid, hsid, hfetch, hit, this]
                simp

theorem resolveMatchList_skip (s3 : S3) (bad : Json) (rest : List Json)
    (cid sid : Json) (e : String)
    (hcid : pyGetItem bad "competition_id" = .ok cid)
    (hsid : pyGetItem bad "season_id" = .ok sid)
    (hfail : s3 (matchesKey cid sid) = .error e) :
    resolveMatchList s3 (bad :: rest)
      = (resolveWarnMsg cid sid e :: (resolveMatchList s3 rest).1,
         (resolveMatchList s3 rest).2) := by
  cases hrest : resolveMatchList s3 rest with
  | mk logr r => simp only [resolveMatchList, hcid, hsid, hfail, hrest]

/-- C7.  If the match-list fetch for one `(competition_id, season_id)`
pair fails during resolution for the lineups/events jobs, that pair
contributes no entries and a warning is logged, while every other pair's
matches still appear in the resolved list; in the lineups job the failed
pair is likewise logged and skipped while the loop continues — a missing
match list never aborts the whole resolution. -/
theorem c7_resolution_skip (s3 : S3) (pre post : List Json) (bad : Json)
    (cid sid : Json) (e : String)
    (logpre logpost : Log) (mlpre mlpost : List MatchInfo)
    (hcid : pyGetItem bad "competition_id" = .ok cid)
    (hsid : pyGetItem bad "season_id" = .ok sid)
    (hfail : s3 (matchesKey cid sid) = .error e)
    (hpre : resolveMatchList s3 pre = (logpre, .ok mlpre))
    (hpost : resolveMatchList s3 post = (logpost, .ok mlpost)) :
    resolveMatchList s3 (pre ++ bad :: post)
        = (logpre ++ resolveWarnMsg cid sid e :: logpost, .ok (mlpre ++ mlpost)) ∧
      (∀ db log, lineupsPairStep s3 bad db log
        = .ok (db, log ++ [lineupsPairFailMsg cid sid e])) ∧
      (∀ rest db log, lineupsCompsLoop s3 (bad :: rest) db log
        = lineupsCompsLoop s3 rest db (log ++ [lineupsPairFailMsg cid sid e])) := by
  have hstep : ∀ db log, lineupsPairStep s3 bad db log
      = .ok (db, log ++ [lineupsPairFailMsg cid sid e]) := by
    intro db log
    simp only [lineupsPairStep, hcid, hsid, hfail, exceptOkBind]
  refine ⟨?_, hstep, ?_⟩
  · have hbadpost : resolveMatchList s3 (bad :: post)
        = (resolveWarnMsg cid sid e :: logpost, .ok mlpost) := by
      rw [resolveMatchList_skip s3 bad post cid sid e hcid hsid hfail, hpost]
    exact resolveMatchList_append s3 pre (bad :: post) logpre mlpre
      (resolveWarnMsg cid sid e :: logpost) mlpost hpre hbadpost
  · intro rest db log
    simp only [lineupsCompsLoop, hstep db log]

/-- Witness for C7, on the three-pair source `cex7S3` whose middle pair's
match list is missing. -/
theorem c7_witness :
    resolveMatchList cex7S3
        ([.obj [("competition_id", .i 1), ("season_id", .i 1)]] ++
         .obj [("competition_id", .i 2), ("season_id", .i 2)] ::
         [.obj [("competition_id", .i 3), ("season_id", .i 3)]])
      = ([] ++ resolveWarnMsg (.i 2) (.i 2) "NoSuchKey" :: [],
         .ok ([(.i 1, .i 1, .obj [("match_id", .i 10)])] ++
              [(.i 3, .i 3, .obj [("match_id", .i 30)])])) ∧
      (∀ db log, lineupsPairStep cex7S3
          (.obj [("competition_id", .i 2), ("season_id", .i 2)]) db log
        = .ok (db, log ++ [lineupsPairFailMsg (.i 2) (.i 2) "NoSuchKey"])) ∧
      (∀ rest db log, lineupsCompsLoop cex7S3
          (.obj [("competition_id", .i 2), ("season_id", .i 2)] :: rest) db log
        = lineupsCompsLoop cex7S3 rest db
            (log ++ [lineupsPairFailMsg (.i 2) (.i 2) "NoSuchKey"])) :=
  c7_resolution_skip cex7S3
    [.obj [("competition_id", .i 1), ("season_id", .i 1)]]
    [.obj [("competition_id", .i 3), ("season_id", .i 3)]]
    (.obj [("competition_id", .i 2), ("season_id", .i 2)])
    (.i 2) (.i 2) "NoSuchKey"
    [] [] [(.i 1, .i 1, .obj [("match_id", .i 10)])]
    [(.i 3, .i 3, .obj [("match_id", .i 30)])]
    rfl rfl rfl rfl rfl

theorem loadSingleMatch_counter (s3 : S3) (mi : MatchInfo) (db : DB) (c : Nat) :
    (loadSingleMatch s3 mi (db, c)).2 = if matchOk s3 mi then c + 1 else c := by
  unfold loadSingleMatch matchOk
  cases h1 : pyGetItem mi.2.2 "match_id" with
  | error e => simp
  | ok mid =>
    cases h2 : s3 (eventsKey mid) with
    | error e => simp [h2]
    | ok data =>
      cases h3 : pyIter data with
      | error e => simp [h2, h3]
      | ok evs =>
        cases h4 : normalizeEvents mid evs with
        | error e => simp [h2, h3, h4]
        | ok rows => simp [h2, h3, h4]

theorem poolRun_counter (s3 : S3) (order : List MatchInfo) :
    ∀ db c, (poolRun s3 order (db, c)).2 = c + order.countP (matchOk s3) := by
  induction order with
  | nil => intro db c; simp [poolRun]
  | cons mi rest ih =>
    intro db c
    have hstep : poolRun s3 (mi :: rest) (db, c)
        = poolRun s3 rest (loadSingleMatch s3 mi (db, c)) := rfl
    rw [hstep]
    have heta : loadSingleMatch s3 mi (db, c)
        = ((loadSingleMatch s3 mi (db, c)).1, (loadSingleMatch s3 mi (db, c)).2) := rfl
    rw [heta, ih, loadSingleMatch_counter]
    rw [List.countP_cons]
    cases h : matchOk s3 mi <;> simp <;> omega

/-- C3.  For every resolved match list and zero per-match failures, the
shared progress counter reads exactly the length of the list after the
pool completes, regardless of the scheduling order of the workers (every
permutation `sched` of the job list yields the same total, because each
increment is atomic under `progress_lock`).  The pool width (`maxWorkers
= 8`) does not affect the total. -/
theorem c3_progress_counter_exact (s3 : S3) (cs : List Json) (rlog : Log)
    (ml : List MatchInfo) (sched : List MatchInfo → List MatchInfo) (db : DB)
    (hm : s3 competitionsKey = .ok (.arr cs))
    (hres : resolveMatchList s3 cs = (rlog, .ok ml))
    (hsched : ∀ l, (sched l).Perm l)
    (hok : ∀ mi ∈ ml, matchOk s3 mi = true) :
    (loadEvents s3 sched db).counter = ml.length := by
  cases hpool : poolRun s3 (sched ml) (createEventsTableUnique db, 0) with
  | mk db2 ctr =>
    have hcounter : (loadEvents s3 sched db).counter = ctr := by
      unfold loadEvents
      rw [hm]
      simp only [pyIter, hres, hpool]
    rw [hcounter]
    have h5 := poolRun_counter s3 (sched ml) (createEventsTableUnique db) 0
    rw [hpool] at h5
    simp only [Nat.zero_add] at h5
    rw [h5, (hsched ml).countP_eq (matchOk s3)]
    exact List.countP_eq_length.mpr hok

/-- Witness for C3: the two-match source `cex3S3`, scheduled in reverse
order, still ends with the counter at 2. -/
theorem c3_witness :
    (loadEvents cex3S3 List.reverse DB.empty).counter = 2 :=
  c3_progress_counter_exact cex3S3
    [.obj [("competition_id", .i 1), ("season_id", .i 1)]] []
    [(.i 1, .i 1, .obj [("match_id", .i 10)]),
     (.i 1, .i 1, .obj [("match_id", .i 11)])]
    List.reverse DB.empty rfl rfl (fun l => l.reverse_perm) (by decide)

theorem normalizeEvents_length (mid : Json) :
    ∀ evs rows, normalizeEvents mid evs = .ok rows → rows.length = evs.length := by
  intro evs
  induction evs with
  | nil =>
    intro rows h
    simp only [normalizeEvents] at h
    cases h
    rfl
  | cons ev rest ih =>
    intro rows h
    simp only [normalizeEvents] at h
    cases hn : normalizeEvent mid ev with
    | error e => rw [hn, exceptErrorBind] at h; cases h
    | ok t =>
      rw [hn, exceptOkBind] at h
      cases hr : normalizeEvents mid rest with
      | error e => rw [hr, exceptErrorBind] at h; cases h
      | ok rs =>
        rw [hr, exceptOkBind] at h
        cases h
        simp [ih rs hr]

theorem insertEventBatchIgnore_fresh :
    ∀ (rows : List EvTuple) (db : DB),
      (∀ t ∈ rows, keyPresent db t.m t.idx = false) →
      rows.Pairwise (fun a c => (sqlEq a.m c.m && sqlEq a.idx c.idx) = false) →
      (insertEventBatchIgnore db rows).events.map evParts
        = db.events.map evParts ++ rows.map tParts := by
  intro rows
  induction rows with
  | nil => intro db _ _; simp [insertEventBatchIgnore]
  | cons t rest ih =>
    intro db hfresh hpair
    have hcond : (db.eventsUnique && keyPresent db t.m t.idx) = false := by
      rw [hfresh t (List.mem_cons_self t rest)]
      simp
    have hstep : insertEventIgnore db t
        = { db with events := db.events ++ [⟨db.eventsNextId, t.m, t.idx, t.ts, t.ty⟩],
                    eventsNextId := db.eventsNextId + 1 } := by
      unfold insertEventIgnore
      rw [hcond]
      simp
    have hbatch : insertEventBatchIgnore db (t :: rest)
        = insertEventBatchIgnore (insertEventIgnore db t) rest := rfl
    rw [hbatch, hstep]
    obtain ⟨hhead, htail⟩ := List.pairwise_cons.mp hpair
    rw [ih _ ?_ htail]
    · simp [evParts, tParts]
    · intro u hu
      unfold keyPresent
      simp only [List.any_append]
      have h1 : keyPresent db u.m u.idx = false := hfresh u (List.mem_cons_of_mem t hu)
      unfold keyPresent at h1
      rw [h1]
      simp [hhead u hu]

/-- C8.  For every match, the batch of event rows written by
`load_single_match` preserves the exact sequence of events as fetched:
the comprehension produces one tuple per fetched record in source order
(`rows.length = evs.length` with `normalizeEvents` an order-preserving
map), and the single `execute_values` write appends the rows in exactly
that order — no reordering and no gap-filling. -/
theorem c8_batch_order_preserved (s3 : S3) (mi : MatchInfo) (mid : Json)
    (evs : List Json) (rows : List EvTuple) (db : DB) (c : Nat)
    (hmid : pyGetItem mi.2.2 "match_id" = .ok mid)
    (hfetch : s3 (eventsKey mid) = .ok (.arr evs))
    (hrows : normalizeEvents mid evs = .ok rows)
    (hfresh : ∀ t ∈ rows, keyPresent db t.m t.idx = false)
    (hpair : rows.Pairwise (fun a c2 => (sqlEq a.m c2.m && sqlEq a.idx c2.idx) = false)) :
    (loadSingleMatch s3 mi (db, c)).1.events.map evParts
        = db.events.map evParts ++ rows.map tParts ∧
      rows.length = evs.length := by
  refine ⟨?_, normalizeEvents_length mid evs rows hrows⟩
  simp only [loadSingleMatch, hmid, hfetch, pyIter, hrows]
  cases rows with
  | nil => simp
  | cons t rest =>
    simp only [List.isEmpty_cons, if_false]
    exact insertEventBatchIgnore_fresh (t :: rest) db hfresh hpair

/-- Witness for C8: the spec's ordering test — a match whose event stream
has indexes `[0, 1, 2, 5, 6]` (gap at 3 and 4) is written as exactly that
sequence. -/
theorem c8_witness :
    (loadSingleMatch cex8S3 (.i 1, .i 1, .obj [("match_id", .i 10)])
        (DB.empty, 0)).1.events.map evParts
      = DB.empty.events.map evParts ++
        [(⟨.i 10, .i 0, .null, .null⟩ : EvTuple),
         ⟨.i 10, .i 1, .null, .null⟩, ⟨.i 10, .i 2, .null, .null⟩,
         ⟨.i 10, .i 5, .null, .null⟩, ⟨.i 10, .i 6, .null, .null⟩].map tParts ∧
     ([(⟨.i 10, .i 0, .null, .null⟩ : EvTuple),
       ⟨.i 10, .i 1, .null, .null⟩, ⟨.i 10, .i 2, .null, .null⟩,
       ⟨.i 10, .i 5, .null, .null⟩, ⟨.i 10, .i 6, .null, .null⟩] : List EvTuple).length
       = ([.obj [("index", .i 0)], .obj [("index", .i 1)], .obj [("index", .i 2)],
           .obj [("index", .i 5)], .obj [("index", .i 6)]] : List Json).length :=
  c8_batch_order_preserved cex8S3 (.i 1, .i 1, .obj [("match_id", .i 10)]) (.i 10)
    [.obj [("index", .i 0)], .obj [("index", .i 1)], .obj [("index", .i 2)],
     .obj [("index", .i 5)], .obj [("index", .i 6)]]
    [⟨.i 10, .i 0, .null, .null⟩, ⟨.i 10, .i 1, .null, .null⟩,
     ⟨.i 10, .i 2, .null, .null⟩, ⟨.i 10, .i 5, .null, .null⟩,
     ⟨.i 10, .i 6, .null, .null⟩]
    DB.empty 0 rfl rfl rfl
    (by intro t ht; rfl)
    (by
      refine List.Pairwise.cons ?_ (List.Pairwise.cons ?_ (List.Pairwise.cons ?_
        (List.Pairwise.cons ?_ (List.pairwise_singleton _ _)))) <;>
        (intro u hu; fin_cases hu <;> rfl))

/-- C2 (counterexample).  The claim says the events job is idempotent on
row count for every fixed source data set, given the declared uniqueness
constraints.  On `cex2S3` — one match whose stream has an event with
index 0 and an event with no `index` at all — the missing index is stored
as SQL `NULL`, which the `UNIQUE (match_id, index)` constraint never
matches: the first run writes 2 rows, the second run's conflict-tolerant
batch re-inserts the null-index row, leaving 3. -/
theorem c2_counterexample_null_index_not_idempotent :
    (eventsRunDB cex2S3 id (eventsRunDB cex2S3 id DB.empty)).events.length
        ≠ (eventsRunDB cex2S3 id DB.empty).events.length ∧
      (eventsRunDB cex2S3 id DB.empty).events.length = 2 ∧
      (eventsRunDB cex2S3 id (eventsRunDB cex2S3 id DB.empty)).events.length = 3 := by
  refine ⟨?_, ?_, ?_⟩ <;> decide

theorem sqlEq_i_self (n : Int) : sqlEq (.i n) (.i n) = true := by simp [sqlEq]

theorem s3Of_competitionsKey (d : Dataset) :
    s3Of d competitionsKey = .ok (.arr (d.comps.map CompSrc.json)) := by
  unfold s3Of
  rw [if_pos rfl]

theorem s3Of_pair (d : Dataset) (hwf : d.wf) (c : CompSrc) (hc : c ∈ d.comps) :
    s3Of d (matchesKey (.i c.competition_id) (.i c.season_id))
      = (match d.matchesOf c.competition_id c.season_id with
         | some ms => .ok (.arr (ms.map MatchSrc.json))
         | none => .error "NoSuchKey") := by
  unfold s3Of
  rw [if_neg (hwf.2.2.1 c hc)]
  split
  next c2 heq =>
    have hpred := List.find?_some heq
    have hmem2 := List.mem_of_find?_eq_some heq
    simp only [decide_eq_true_eq] at hpred
    obtain ⟨h1, h2⟩ := hwf.1 c hc c2 hmem2 hpred
    rw [← h1, ← h2]
  next heq =>
    exfalso
    have := List.find?_eq_none.mp heq c hc
    simp at this

theorem s3Of_events (d : Dataset) (hwf : d.wf) (mid : Int) (hm : mid ∈ d.mids) :
    s3Of d (eventsKey (.i mid))
      = (match d.eventsOf mid with
         | some es => .ok (.arr (es.map EventSrc.json))
         | none => .error "NoSuchKey") := by
  unfold s3Of
  rw [if_neg (hwf.2.2.2.1 mid hm)]
  have hnone : d.comps.find?
      (fun c2 => eventsKey (.i mid) = matchesKey (.i c2.competition_id) (.i c2.season_id)) = none := by
    apply List.find?_eq_none.mpr
    intro c2 hc2
    simp only [decide_eq_true_eq]
    exact fun heq => (hwf.2.2.2.2 c2 hc2 mid hm) heq.symm
  simp only [hnone]
  split
  next mid2 heq =>
    have hpred := List.find?_some heq
    have hmem2 := List.mem_of_find?_eq_some heq
    simp only [decide_eq_true_eq] at hpred
    rw [← hwf.2.1 mid hm mid2 hmem2 hpred]
  next heq =>
    exfalso
    have := List.find?_eq_none.mp heq mid hm
    simp at this

theorem compJson_cid (c : CompSrc) :
    pyGetItem c.json "competition_id" = .ok (.i c.competition_id) := rfl

theorem compJson_sid (c : CompSrc) :
    pyGetItem c.json "season_id" = .ok (.i c.season_id) := rfl

theorem matchJson_mid (m : MatchSrc) :
    pyGetItem (MatchSrc.json m) "match_id" = .ok (.i m.match_id) := rfl

theorem normalizeMatchRow_src (cid sid : Json) (m : MatchSrc) :
    normalizeMatchRow cid sid (MatchSrc.json m)
      = .ok ⟨.i m.match_id, cid, sid, .s m.match_date, .s m.home, .s m.away⟩ := rfl

theorem normalizeEvent_src (mj : Json) (e : EventSrc) :
    normalizeEvent mj (EventSrc.json e) = .ok (evTupleOf mj e) := by
  obtain ⟨i, t, tn⟩ := e
  cases tn <;> rfl

theorem normalizeEvents_src (mj : Json) (es : List EventSrc) :
    normalizeEvents mj (es.map EventSrc.json) = .ok (es.map (evTupleOf mj)) := by
  induction es with
  | nil => rfl
  | cons e rest ih =>
    simp only [List.map_cons, normalizeEvents, normalizeEvent_src, exceptOkBind,
      ih]

theorem insertEventIgnore_eventsUnique (db : DB) (t : EvTuple) :
    (insertEventIgnore db t).eventsUnique = db.eventsUnique := by
  unfold insertEventIgnore
  split <;> rfl

theorem insertEventIgnore_eventsCreated (db : DB) (t : EvTuple) :
    (insertEventIgnore db t).eventsCreated = db.eventsCreated := by
  unfold insertEventIgnore
  split <;> rfl

theorem keyPresent_congr (db1 db2 : DB) (h : db1.events = db2.events)
    (m idx : Json) : keyPresent db1 m idx = keyPresent db2 m idx := by
  unfold keyPresent
  rw [h]

theorem keyPresent_insertEventIgnore (db : DB) (t : EvTuple) (m idx : Json)
    (h : keyPresent db m idx = true) :
    keyPresent (insertEventIgnore db t) m idx = true := by
  unfold insertEventIgnore
  split
  · exact h
  · unfold keyPresent at h ⊢
    simp only [List.any_append]
    rw [h]
    simp

theorem insertEventIgnore_establishes (db : DB) (t : EvTuple)
    (hm : sqlEq t.m t.m = true) (hi : sqlEq t.idx t.idx = true) :
    keyPresent (insertEventIgnore db t) t.m t.idx = true := by
  unfold insertEventIgnore
  split
  next h => exact (Bool.and_eq_true .. ▸ h).2
  next h =>
    unfold keyPresent
    simp [List.any_append, hm, hi]

theorem batch_eventsUnique (rows : List EvTuple) :
    ∀ db : DB, (insertEventBatchIgnore db rows).eventsUnique = db.eventsUnique := by
  induction rows with
  | nil => intro db; rfl
  | cons t rest ih =>
    intro db
    have : insertEventBatchIgnore db (t :: rest)
        = insertEventBatchIgnore (insertEventIgnore db t) rest := rfl
    rw [this, ih, insertEventIgnore_eventsUnique]

theorem batch_eventsCreated (rows : List EvTuple) :
    ∀ db : DB, (insertEventBatchIgnore db rows).eventsCreated = db.eventsCreated := by
  induction rows with
  | nil => intro db; rfl
  | cons t rest ih =>
    intro db
    have : insertEventBatchIgnore db (t :: rest)
        = insertEventBatchIgnore (insertEventIgnore db t) rest := rfl
    rw [this, ih, insertEventIgnore_eventsCreated]

theorem batch_keyPresent_mono (rows : List EvTuple) :
    ∀ (db : DB) (m idx : Json), keyPresent db m idx = true →
      keyPresent (insertEventBatchIgnore db rows) m idx = true := by
  induction rows with
  | nil => intro db m idx h; exact h
  | cons t rest ih =>
    intro db m idx h
    exact ih (insertEventIgnore db t) m idx (keyPresent_insertEventIgnore db t m idx h)

theorem batch_establishes (rows : List EvTuple) :
    ∀ (db : DB) (t : EvTuple), t ∈ rows →
      sqlEq t.m t.m = true → sqlEq t.idx t.idx = true →
      keyPresent (insertEventBatchIgnore db rows) t.m t.idx = true := by
  induction rows with
  | nil => intro db t ht; simp at ht
  | cons u rest ih =>
    intro db t ht hm hi
    rcases List.mem_cons.mp ht with h | ht2
    · subst h
      exact batch_keyPresent_mono rest (insertEventIgnore db t) t.m t.idx
        (insertEventIgnore_establishes db t hm hi)
    · exact ih (insertEventIgnore db u) t ht2 hm hi

theorem batch_noop_events (rows : List EvTuple) :
    ∀ (db db0 : DB), db.events = db0.events → db.eventsUnique = true →
      (∀ t ∈ rows, keyPresent db0 t.m t.idx = true) →
      (insertEventBatchIgnore db rows).events = db0.events := by
  induction rows with
  | nil => intro db db0 he _ _; exact he
  | cons t rest ih =>
    intro db db0 he hu hall
    have hcond : (db.eventsUnique && keyPresent db t.m t.idx) = true := by
      rw [hu, keyPresent_congr db db0 he, hall t (List.mem_cons_self t rest)]
      rfl
    have hstep : insertEventIgnore db t = { db with eventsNextId := db.eventsNextId + 1 } := by
      unfold insertEventIgnore
      rw [hcond]
      rfl
    have hbatch : insertEventBatchIgnore db (t :: rest)
        = insertEventBatchIgnore (insertEventIgnore db t) rest := rfl
    rw [hbatch, hstep]
    exact ih _ db0 he hu (fun u hu2 => hall u (List.mem_cons_of_mem t hu2))

theorem loadSingleMatch_db_shape (s3 : S3) (mi : MatchInfo) (db : DB) (c : Nat) :
    ∃ rows, (loadSingleMatch s3 mi (db, c)).1 = insertEventBatchIgnore db rows := by
  unfold loadSingleMatch
  cases h1 : pyGetItem mi.2.2 "match_id" with
  | error e => exact ⟨[], rfl⟩
  | ok mid =>
    cases h2 : s3 (eventsKey mid) with
    | error e => exact ⟨[], by simp [h2, insertEventBatchIgnore]⟩
    | ok data =>
      cases h3 : pyIter data with
      | error e => exact ⟨[], by simp [h2, h3, insertEventBatchIgnore]⟩
      | ok evs =>
        cases h4 : normalizeEvents mid evs with
        | error e => exact ⟨[], by simp [h2, h3, h4, insertEventBatchIgnore]⟩
        | ok rows =>
          refine ⟨rows, ?_⟩
          simp only [h2, h3, h4]
          cases rows with
          | nil => simp [insertEventBatchIgnore]
          | cons t rest => simp

theorem poolRun_eventsUnique (s3 : S3) (order : List MatchInfo) :
    ∀ db c, (poolRun s3 order (db, c)).1.eventsUnique = db.eventsUnique := by
  induction order with
  | nil => intro db c; rfl
  | cons mi rest ih =>
    intro db c
    have hstep : poolRun s3 (mi :: rest) (db, c)
        = poolRun s3 rest (loadSingleMatch s3 mi (db, c)) := rfl
    have heta : loadSingleMatch s3 mi (db, c)
        = ((loadSingleMatch s3 mi (db, c)).1, (loadSingleMatch s3 mi (db, c)).2) := rfl
    obtain ⟨rows, hrows⟩ := loadSingleMatch_db_shape s3 mi db c
    rw [hstep, heta, ih, hrows, batch_eventsUnique]

theorem poolRun_eventsCreated (s3 : S3) (order : List MatchInfo) :
    ∀ db c, (poolRun s3 order (db, c)).1.eventsCreated = db.eventsCreated := by
  induction order with
  | nil => intro db c; rfl
  | cons mi rest ih =>
    intro db c
    have hstep : poolRun s3 (mi :: rest) (db, c)
        = poolRun s3 rest (loadSingleMatch s3 mi (db, c)) := rfl
    have heta : loadSingleMatch s3 mi (db, c)
        = ((loadSingleMatch s3 mi (db, c)).1, (loadSingleMatch s3 mi (db, c)).2) := rfl
    obtain ⟨rows, hrows⟩ := loadSingleMatch_db_shape s3 mi db c
    rw [hstep, heta, ih, hrows, batch_eventsCreated]

theorem poolRun_keyPresent_mono (s3 : S3) (order : List MatchInfo) :
    ∀ db c (m idx : Json), keyPresent db m idx = true →
      keyPresent (poolRun s3 order (db, c)).1 m idx = true := by
  induction order with
  | nil => intro db c m idx h; exact h
  | cons mi rest ih =>
    intro db c m idx h
    have hstep : poolRun s3 (mi :: rest) (db, c)
        = poolRun s3 rest (loadSingleMatch s3 mi (db, c)) := rfl
    have heta : loadSingleMatch s3 mi (db, c)
        = ((loadSingleMatch s3 mi (db, c)).1, (loadSingleMatch s3 mi (db, c)).2) := rfl
    obtain ⟨rows, hrows⟩ := loadSingleMatch_db_shape s3 mi db c
    rw [hstep, heta]
    refine ih _ _ m idx ?_
    rw [hrows]
    exact batch_keyPresent_mono rows db m idx h

theorem mids_struct (d : Dataset) (mid : Int) (h : mid ∈ d.mids) :
    ∃ c0 ∈ d.comps, ∃ ms, d.matchesOf c0.competition_id c0.season_id = some ms ∧
      ∃ m ∈ ms, m.match_id = mid := by
  unfold Dataset.mids at h
  rw [List.mem_flatMap] at h
  obtain ⟨c0, hc0, hm⟩ := h
  cases ho : d.matchesOf c0.competition_id c0.season_id with
  | none => rw [ho] at hm; simp at hm
  | some ms =>
    rw [ho] at hm
    simp only [Option.getD_some, List.mem_map] at hm
    obtain ⟨m, hm2, heq⟩ := hm
    exact ⟨c0, hc0, ms, ho, m, hm2, heq⟩

theorem struct_mids (d : Dataset) (c0 : CompSrc) (hc0 : c0 ∈ d.comps)
    (ms : List MatchSrc) (ho : d.matchesOf c0.competition_id c0.season_id = some ms)
    (m : MatchSrc) (hm : m ∈ ms) : m.match_id ∈ d.mids := by
  unfold Dataset.mids
  rw [List.mem_flatMap]
  refine ⟨c0, hc0, ?_⟩
  rw [ho]
  simp only [Option.getD_some, List.mem_map]
  exact ⟨m, hm, rfl⟩

theorem dsMl_struct (d : Dataset) (mi : MatchInfo) (h : mi ∈ dsMl d) :
    ∃ c0 ∈ d.comps, ∃ ms, d.matchesOf c0.competition_id c0.season_id = some ms ∧
      ∃ m ∈ ms, mi = (.i c0.competition_id, .i c0.season_id, MatchSrc.json m) := by
  unfold dsMl dsMlOf at h
  rw [List.mem_flatMap] at h
  obtain ⟨c0, hc0, hm⟩ := h
  cases ho : d.matchesOf c0.competition_id c0.season_id with
  | none => rw [ho] at hm; simp at hm
  | some ms =>
    rw [ho] at hm
    simp only [List.mem_map] at hm
    obtain ⟨m, hm2, heq⟩ := hm
    exact ⟨c0, hc0, ms, ho, m, hm2, heq.symm⟩

theorem struct_dsMl (d : Dataset) (c0 : CompSrc) (hc0 : c0 ∈ d.comps)
    (ms : List MatchSrc) (ho : d.matchesOf c0.competition_id c0.season_id = some ms)
    (m : MatchSrc) (hm : m ∈ ms) :
    (.i c0.competition_id, .i c0.season_id, MatchSrc.json m) ∈ dsMl d := by
  unfold dsMl dsMlOf
  rw [List.mem_flatMap]
  refine ⟨c0, hc0, ?_⟩
  rw [ho]
  exact List.mem_map_of_mem _ hm

theorem loadSingleMatch_ds (d : Dataset) (hwf : d.wf) (c0 : CompSrc) (m : MatchSrc)
    (hm : m.match_id ∈ d.mids) (es : List EventSrc)
    (hes : d.eventsOf m.match_id = some es) (db : DB) (c : Nat) :
    (loadSingleMatch (s3Of d)
        (.i c0.competition_id, .i c0.season_id, MatchSrc.json m) (db, c)).1
      = insertEventBatchIgnore db (es.map (evTupleOf (.i m.match_id))) := by
  unfold loadSingleMatch
  simp only [matchJson_mid, s3Of_events d hwf m.match_id hm, hes, pyIter,
    normalizeEvents_src]
  cases es with
  | nil => simp [insertEventBatchIgnore]
  | cons e rest => simp

theorem poolRun_establishes (d : Dataset) (hwf : d.wf) (order : List MatchInfo)
    (horder : ∀ mi ∈ dsMl d, mi ∈ order) (db : DB) (c : Nat) :
    eventKeysPresent d (poolRun (s3Of d) order (db, c)).1 := by
  intro mid hmid es hes e he
  obtain ⟨c0, hc0, ms, ho, m, hm2, hmideq⟩ := mids_struct d mid hmid
  subst hmideq
  have hmi := struct_dsMl d c0 hc0 ms ho m hm2
  obtain ⟨o1, o2, horder2⟩ := List.append_of_mem (horder _ hmi)
  subst horder2
  have hsplit : poolRun (s3Of d)
      (o1 ++ (.i c0.competition_id, .i c0.season_id, MatchSrc.json m) :: o2) (db, c)
      = poolRun (s3Of d) o2
          (loadSingleMatch (s3Of d)
            (.i c0.competition_id, .i c0.season_id, MatchSrc.json m)
            (poolRun (s3Of d) o1 (db, c))) := by
    unfold poolRun
    rw [List.foldl_append, List.foldl_cons]
  rw [hsplit]
  have heta : poolRun (s3Of d) o1 (db, c)
      = ((poolRun (s3Of d) o1 (db, c)).1, (poolRun (s3Of d) o1 (db, c)).2) := rfl
  rw [heta]
  have hload := loadSingleMatch_ds d hwf c0 m hmid es hes
    (poolRun (s3Of d) o1 (db, c)).1 (poolRun (s3Of d) o1 (db, c)).2
  have heta2 : loadSingleMatch (s3Of d)
      (.i c0.competition_id, .i c0.season_id, MatchSrc.json m)
      ((poolRun (s3Of d) o1 (db, c)).1, (poolRun (s3Of d) o1 (db, c)).2)
      = ((loadSingleMatch (s3Of d)
          (.i c0.competition_id, .i c0.season_id, MatchSrc.json m)
          ((poolRun (s3Of d) o1 (db, c)).1, (poolRun (s3Of d) o1 (db, c)).2)).1,
         (loadSingleMatch (s3Of d)
          (.i c0.competition_id, .i c0.season_id, MatchSrc.json m)
          ((poolRun (s3Of d) o1 (db, c)).1, (poolRun (s3Of d) o1 (db, c)).2)).2) := rfl
  rw [heta2]
  apply poolRun_keyPresent_mono
  rw [hload]
  exact batch_establishes _ _ (evTupleOf (.i m.match_id) e)
    (List.mem_map_of_mem _ he) (sqlEq_i_self _) (sqlEq_i_self _)

theorem poolRun_ds_noop (d : Dataset) (hwf : d.wf) (order : List MatchInfo)
    (db0 : DB) (hp0 : eventKeysPresent d db0) :
    ∀ (hsub : ∀ mi ∈ order, mi ∈ dsMl d) (db : DB) (c : Nat),
      db.events = db0.events → db.eventsUnique = true →
      (poolRun (s3Of d) order (db, c)).1.events = db0.events := by
  induction order with
  | nil => intro _ db c he _; exact he
  | cons mi rest ih =>
    intro hsub db c he hu
    obtain ⟨c0, hc0, ms, ho, m, hm2, hmieq⟩ :=
      dsMl_struct d mi (hsub mi (List.mem_cons_self mi rest))
    subst hmieq
    have hstep : poolRun (s3Of d)
        ((.i c0.competition_id, .i c0.season_id, MatchSrc.json m) :: rest) (db, c)
        = poolRun (s3Of d) rest
            (loadSingleMatch (s3Of d)
              (.i c0.competition_id, .i c0.season_id, MatchSrc.json m) (db, c)) := rfl
    rw [hstep]
    have heta : loadSingleMatch (s3Of d)
        (.i c0.competition_id, .i c0.season_id, MatchSrc.json m) (db, c)
        = ((loadSingleMatch (s3Of d)
            (.i c0.competition_id, .i c0.season_id, MatchSrc.json m) (db, c)).1,
           (loadSingleMatch (s3Of d)
            (.i c0.competition_id, .i c0.season_id, MatchSrc.json m) (db, c)).2) := rfl
    rw [heta]
    have hmids := struct_mids d c0 hc0 ms ho m hm2
    have hsub2 : ∀ mi2 ∈ rest, mi2 ∈ dsMl d :=
      fun mi2 h2 => hsub mi2 (List.mem_cons_of_mem _ h2)
    cases hes : d.eventsOf m.match_id with
    | none =>
      have hnochange : (loadSingleMatch (s3Of d)
          (.i c0.competition_id, .i c0.season_id, MatchSrc.json m) (db, c)).1 = db := by
        unfold loadSingleMatch
        simp only [matchJson_mid, s3Of_events d hwf m.match_id hmids, hes]
      rw [hnochange]
      exact ih hsub2 db _ he hu
    | some es =>
      have hload := loadSingleMatch_ds d hwf c0 m hmids es hes db c
      rw [hload]
      have hall : ∀ t ∈ es.map (evTupleOf (.i m.match_id)),
          keyPresent db0 t.m t.idx = true := by
        intro t ht
        rw [List.mem_map] at ht
        obtain ⟨e, he2, heq⟩ := ht
        subst heq
        exact hp0 m.match_id hmids es hes e he2
      refine ih hsub2 _ _ ?_ ?_
      · exact batch_noop_events _ db db0 he hu hall
      · rw [batch_eventsUnique]
        exact hu

theorem seqEventsLoop_preserve (db : DB) (hu : db.eventsUnique = true)
    (mid : Int) (es : List EventSrc)
    (hkeys : ∀ e ∈ es, keyPresent db (.i mid) (.i e.index) = true) :
    ∀ st : BState, st.conn.db = db →
      bresDB (seqEventsLoop (.i mid) (es.map EventSrc.json) st) = db := by
  induction es with
  | nil =>
    intro st hst
    simp only [List.map_nil, seqEventsLoop, bresDB]
    exact hst
  | cons e rest ih =>
    intro st hst
    simp only [List.map_cons, seqEventsLoop, normalizeEvent_src]
    cases htx : st.conn.txFailed with
    | true =>
      simp only [connExec, htx]
      simp [bresDB, hst]
    | false =>
      have hplain : insertEventPlain st.conn.db (evTupleOf (.i mid) e)
          = .error "UniqueViolation" := by
        unfold insertEventPlain
        rw [hst]
        have hcond : (db.eventsUnique &&
            keyPresent db (.i mid) (.i e.index)) = true := by
          rw [hu, hkeys e (List.mem_cons_self e rest)]
          rfl
        simp only [evTupleOf]
        rw [hcond]
        rfl
      simp only [connExec, htx, hplain]
      simp [bresDB, hst]

theorem seqMatchStep_preserve (d : Dataset) (hwf : d.wf) (db : DB)
    (hu : db.eventsUnique = true) (hp : eventKeysPresent d db)
    (m : MatchSrc) (hmids : m.match_id ∈ d.mids) :
    ∀ st : BState, st.conn.db = db →
      bresDB (seqMatchStep (s3Of d) (MatchSrc.json m) st) = db := by
  intro st hst
  unfold seqMatchStep
  simp only [matchJson_mid, s3Of_events d hwf m.match_id hmids]
  cases hes : d.eventsOf m.match_id with
  | none => simp [bresDB, hst]
  | some es =>
    simp only [pyIter]
    exact seqEventsLoop_preserve db hu m.match_id es
      (hp m.match_id hmids es hes) ⟨st.conn, some (.i m.match_id)⟩ hst

theorem seqMatchesLoop_preserve (d : Dataset) (hwf : d.wf) (db : DB)
    (hu : db.eventsUnique = true) (hp : eventKeysPresent d db) :
    ∀ (ms : List MatchSrc), (∀ m ∈ ms, m.match_id ∈ d.mids) →
      ∀ st : BState, st.conn.db = db →
        bresDB (seqMatchesLoop (s3Of d) (ms.map MatchSrc.json) st) = db := by
  intro ms
  induction ms with
  | nil =>
    intro _ st hst
    simp only [List.map_nil, seqMatchesLoop, bresDB]
    exact hst
  | cons m rest ih =>
    intro hmids st hst
    simp only [List.map_cons, seqMatchesLoop]
    cases hres2 : seqMatchStep (s3Of d) (MatchSrc.json m) st with
    | fine st2 =>
      have h2 := seqMatchStep_preserve d hwf db hu hp m
        (hmids m (List.mem_cons_self m rest)) st hst
      rw [hres2] at h2
      simp only [bresDB] at h2
      exact ih (fun m2 hm2 => hmids m2 (List.mem_cons_of_mem _ hm2)) st2 h2
    | exn st2 e =>
      have h2 := seqMatchStep_preserve d hwf db hu hp m
        (hmids m (List.mem_cons_self m rest)) st hst
      rw [hres2] at h2
      simpa [bresDB] using h2

theorem seqCompStep_preserve (d : Dataset) (hwf : d.wf) (db : DB)
    (hu : db.eventsUnique = true) (hp : eventKeysPresent d db)
    (c0 : CompSrc) (hc0 : c0 ∈ d.comps) :
    ∀ (st : BState) (log : Log) (st2 : BState) (log2 : Log),
      st.conn.db = db →
      seqCompStep (s3Of d) (CompSrc.json c0) st log = .ok (st2, log2) →
      st2.conn.db = db := by
  intro st log st2 log2 hst hstep
  unfold seqCompStep at hstep
  rw [compJson_cid, compJson_sid] at hstep
  simp only [exceptOkBind, s3Of_pair d hwf c0 hc0] at hstep
  cases ho : d.matchesOf c0.competition_id c0.season_id with
  | none =>
    rw [ho] at hstep
    cases hlm : st.lastMid with
    | none => simp [hlm] at hstep
    | some mid =>
      simp only [hlm] at hstep
      cases hstep
      exact hst
  | some ms =>
    rw [ho] at hstep
    simp only [pyIter] at hstep
    have hmids : ∀ m ∈ ms, m.match_id ∈ d.mids :=
      fun m hm => struct_mids d c0 hc0 ms ho m hm
    have hloopinv := seqMatchesLoop_preserve d hwf db hu hp ms hmids st hst
    cases hloop : seqMatchesLoop (s3Of d) (ms.map MatchSrc.json) st with
    | fine stx =>
      rw [hloop] at hstep hloopinv
      simp only [bresDB] at hloopinv
      cases hstep
      exact hloopinv
    | exn stx e =>
      rw [hloop] at hstep hloopinv
      simp only [bresDB] at hloopinv
      cases hlm : stx.lastMid with
      | none => simp [hlm] at hstep
      | some mid =>
        simp only [hlm] at hstep
        cases hstep
        exact hloopinv

theorem seqCompsLoop_preserve (d : Dataset) (hwf : d.wf) (db : DB)
    (hu : db.eventsUnique = true) (hp : eventKeysPresent d db) :
    ∀ (l : List CompSrc), (∀ c ∈ l, c ∈ d.comps) →
      ∀ (st : BState) (log : Log) (st2 : BState),
        st.conn.db = db →
        (seqCompsLoop (s3Of d) (l.map CompSrc.json) st log).2 = .ok st2 →
        st2.conn.db = db := by
  intro l
  induction l with
  | nil =>
    intro _ st log st2 hst h
    simp only [List.map_nil, seqCompsLoop] at h
    cases h
    exact hst
  | cons c0 rest ih =>
    intro hsub st log st2 hst h
    simp only [List.map_cons, seqCompsLoop] at h
    cases hstep : seqCompStep (s3Of d) (CompSrc.json c0) st log with
    | error e => rw [hstep] at h; simp at h
    | ok p =>
      rw [hstep] at h
      have hinv := seqCompStep_preserve d hwf db hu hp c0
        (hsub c0 (List.mem_cons_self c0 rest)) st log p.1 p.2 hst
        (by rw [hstep])
      exact ih (fun c2 h2 => hsub c2 (List.mem_cons_of_mem _ h2)) p.1 p.2 st2 hinv h

theorem seqTail_ds (d : Dataset) (hwf : d.wf) (db : DB)
    (hu : db.eventsUnique = true) (hc : db.eventsCreated = true)
    (hp : eventKeysPresent d db) :
    (seqTail (s3Of d) db).db = db := by
  have hc0 : createEventsTablePlain db = db := by
    unfold createEventsTablePlain
    rw [hc]
    rfl
  unfold seqTail
  rw [s3Of_competitionsKey d, hc0]
  simp only [pyIter]
  cases hloop : seqCompsLoop (s3Of d) (d.comps.map CompSrc.json) ⟨⟨db, false⟩, none⟩ [] with
  | mk logx r =>
    cases r with
    | error e => rfl
    | ok st2 =>
      have hinv := seqCompsLoop_preserve d hwf db hu hp d.comps (fun c h => h)
        ⟨⟨db, false⟩, none⟩ [] st2 rfl (by rw [hloop])
      show commitConn db st2.conn = db
      unfold commitConn
      split
      · rfl
      · exact hinv

theorem resolve_ds (d : Dataset) (hwf : d.wf) :
    ∀ (l : List CompSrc), (∀ c ∈ l, c ∈ d.comps) →
      resolveMatchList (s3Of d) (l.map CompSrc.json)
        = (dsWarnLogOf d l, .ok (dsMlOf d l)) := by
  intro l
  induction l with
  | nil => intro _; rfl
  | cons c0 rest ih =>
    intro hsub
    have hrest := ih (fun c2 h2 => hsub c2 (List.mem_cons_of_mem _ h2))
    simp only [List.map_cons, resolveMatchList, compJson_cid, compJson_sid,
      s3Of_pair d hwf c0 (hsub c0 (List.mem_cons_self c0 rest)), hrest]
    cases ho : d.matchesOf c0.competition_id c0.season_id with
    | none =>
      simp only [dsWarnLogOf, dsMlOf, List.filterMap_cons, List.flatMap_cons, ho]
      rfl
    | some ms =>
      simp only [pyIter, dsWarnLogOf, dsMlOf, List.filterMap_cons,
        List.flatMap_cons, ho, List.map_map]
      rfl

theorem loadEvents_ds_eq (d : Dataset) (hwf : d.wf)
    (sched : List MatchInfo → List MatchInfo) (db : DB) :
    (loadEvents (s3Of d) sched db).db
      = (seqTail (s3Of d)
          (poolRun (s3Of d) (sched (dsMl d)) (createEventsTableUnique db, 0)).1).db := by
  cases hpool : poolRun (s3Of d) (sched (dsMl d)) (createEventsTableUnique db, 0) with
  | mk db2 ctr =>
    unfold loadEvents
    rw [s3Of_competitionsKey d]
    have hres : resolveMatchList (s3Of d) (d.comps.map CompSrc.json)
        = (dsWarnLog d, .ok (dsMl d)) := resolve_ds d hwf d.comps (fun c h => h)
    simp only [pyIter, hres, hpool]

theorem insertMatchIgnore_i (db : DB) (r : MatchRow) (n : Int)
    (h : r.match_id = .i n) :
    insertMatchIgnore db r
      = .ok (if midPresent db n then db
             else { db with matchesTbl := db.matchesTbl ++ [r] }) := by
  unfold insertMatchIgnore midPresent
  rw [h]
  split
  next heq => exact Json.noConfusion heq
  next => split <;> rfl

theorem midPresent_append (db : DB) (l : List MatchRow) (k : Int)
    (h : midPresent db k = true) :
    midPresent { db with matchesTbl := db.matchesTbl ++ l } k = true := by
  unfold midPresent at h ⊢
  simp only [List.any_append]
  rw [h]
  simp

theorem midPresent_new (db : DB) (r : MatchRow) (n : Int) (h : r.match_id = .i n) :
    midPresent { db with matchesTbl := db.matchesTbl ++ [r] } n = true := by
  unfold midPresent
  simp [List.any_append, h, sqlEq_i_self]

theorem matchesPairLoop_ds (c0 : CompSrc) (ms : List MatchSrc) :
    ∀ db : DB, ∃ db2,
      matchesPairLoop (.i c0.competition_id) (.i c0.season_id)
          (ms.map MatchSrc.json) ⟨db, false⟩ = .fine ⟨db2, false⟩ ∧
        db2.matchesCreated = db.matchesCreated ∧
        (∀ k, midPresent db k = true → midPresent db2 k = true) ∧
        (∀ m ∈ ms, midPresent db2 m.match_id = true) := by
  induction ms with
  | nil =>
    intro db
    exact ⟨db, rfl, rfl, fun k h => h, by simp⟩
  | cons m rest ih =>
    intro db
    have hins := insertMatchIgnore_i db ⟨.i m.match_id, .i c0.competition_id,
      .i c0.season_id, .s m.match_date, .s m.home, .s m.away⟩ m.match_id rfl
    have hconn : connExec ⟨db, false⟩
        (fun dbx => insertMatchIgnore dbx ⟨.i m.match_id, .i c0.competition_id,
          .i c0.season_id, .s m.match_date, .s m.home, .s m.away⟩)
        = .fine ⟨(if midPresent db m.match_id then db
                  else { db with matchesTbl := db.matchesTbl ++
                    [⟨.i m.match_id, .i c0.competition_id, .i c0.season_id,
                      .s m.match_date, .s m.home, .s m.away⟩] }), false⟩ := by
      unfold connExec
      simp only [Bool.false_eq_true, if_false, hins]
    set db1 := (if midPresent db m.match_id then db
      else { db with matchesTbl := db.matchesTbl ++
        [⟨.i m.match_id, .i c0.competition_id, .i c0.season_id,
          .s m.match_date, .s m.home, .s m.away⟩] }) with hdb1
    obtain ⟨db2, hloop, hcr, hmono, hpres⟩ := ih db1
    have hstep : matchesPairLoop (.i c0.competition_id) (.i c0.season_id)
        ((MatchSrc.json m) :: rest.map MatchSrc.json) ⟨db, false⟩
        = matchesPairLoop (.i c0.competition_id) (.i c0.season_id)
            (rest.map MatchSrc.json) ⟨db1, false⟩ := by
      simp only [matchesPairLoop, normalizeMatchRow_src, hconn]
    have hd1cr : db1.matchesCreated = db.matchesCreated := by
      rw [hdb1]; split <;> rfl
    have hd1mono : ∀ k, midPresent db k = true → midPresent db1 k = true := by
      intro k h
      rw [hdb1]
      split
      · exact h
      · exact midPresent_append db _ k h
    have hd1self : midPresent db1 m.match_id = true := by
      rw [hdb1]
      split
      next h => exact h
      next h => exact midPresent_new db _ m.match_id rfl
    refine ⟨db2, ?_, ?_, ?_, ?_⟩
    · rw [List.map_cons, hstep]; exact hloop
    · rw [hcr, hd1cr]
    · exact fun k h => hmono k (hd1mono k h)
    · intro m2 hm2
      rcases List.mem_cons.mp hm2 with h | h2
    
      · subst h; exact hmono _ hd1self
      · exact hpres m2 h2

theorem matchesPairStep_ds (d : Dataset) (hwf : d.wf) (c0 : CompSrc)
    (hc0 : c0 ∈ d.comps) (db : DB) :
    ∃ db2, matchesPairStep (s3Of d) (CompSrc.json c0) ⟨db, false⟩ = .ok ⟨db2, false⟩ ∧
      db2.matchesCreated = db.matchesCreated ∧
      (∀ k, midPresent db k = true → midPresent db2 k = true) ∧
      (∀ ms, d.matchesOf c0.competition_id c0.season_id = some ms →
        ∀ m ∈ ms, midPresent db2 m.match_id = true) := by
  cases ho : d.matchesOf c0.competition_id c0.season_id with
  | none =>
    refine ⟨db, ?_, rfl, fun k h => h, ?_⟩
    · unfold matchesPairStep
      rw [compJson_cid, compJson_sid]
      simp only [exceptOkBind, s3Of_pair d hwf c0 hc0, ho]
    · intro ms hms; cases hms
  | some ms =>
    obtain ⟨db2, hloop, hcr, hmono, hpres⟩ := matchesPairLoop_ds c0 ms db
    refine ⟨db2, ?_, hcr, hmono, ?_⟩
    · unfold matchesPairStep
      rw [compJson_cid, compJson_sid]
      simp only [exceptOkBind, s3Of_pair d hwf c0 hc0, ho, pyIter, hloop]
    · intro ms2 hms2
      cases hms2
      exact hpres

theorem matchesCompsLoop_ds (d : Dataset) (hwf : d.wf) :
    ∀ (l : List CompSrc), (∀ c ∈ l, c ∈ d.comps) →
      ∀ db : DB, ∃ db2,
        matchesCompsLoop (s3Of d) (l.map CompSrc.json) ⟨db, false⟩ = .ok ⟨db2, false⟩ ∧
          db2.matchesCreated = db.matchesCreated ∧
          (∀ k, midPresent db k = true → midPresent db2 k = true) ∧
          (∀ c ∈ l, ∀ ms, d.matchesOf c.competition_id c.season_id = some ms →
            ∀ m ∈ ms, midPresent db2 m.match_id = true) := by
  intro l
  induction l with
  | nil =>
    intro _ db
    refine ⟨db, rfl, rfl, fun k h => h, ?_⟩
    intro c hc
    simp at hc
  | cons c0 rest ih =>
    intro hsub db
    obtain ⟨db1, hstep, hcr1, hmono1, hpres1⟩ :=
      matchesPairStep_ds d hwf c0 (hsub c0 (List.mem_cons_self c0 rest)) db
    obtain ⟨db2, hloop, hcr2, hmono2, hpres2⟩ :=
      ih (fun c2 h2 => hsub c2 (List.mem_cons_of_mem _ h2)) db1
    refine ⟨db2, ?_, ?_, ?_, ?_⟩
    · simp only [List.map_cons, matchesCompsLoop, hstep, hloop]
    · rw [hcr2, hcr1]
    · exact fun k h => hmono2 k (hmono1 k h)
    · intro c hc ms hms m hm
      rcases List.mem_cons.mp hc with h | h2
      · subst h
        exact hmono2 _ (hpres1 ms hms m hm)
      · exact hpres2 c h2 ms hms m hm

theorem createMatchesTable_created (db : DB) :
    (createMatchesTable db).matchesCreated = true := by
  unfold createMatchesTable
  split
  next h => exact h
  next h => rfl

theorem createMatchesTable_tbl (db : DB) :
    (createMatchesTable db).matchesTbl = db.matchesTbl := by
  unfold createMatchesTable
  split <;> rfl

theorem loadMatches_ds_run (d : Dataset) (hwf : d.wf) (db : DB) :
    ∃ db2, loadMatches (s3Of d) db = (db2, none) ∧
      db2.matchesCreated = true ∧ matchIdsPresent d db2 := by
  obtain ⟨db2, hloop, hcr, _hmono, hpres⟩ :=
    matchesCompsLoop_ds d hwf d.comps (fun c h => h) (createMatchesTable db)
  refine ⟨db2, ?_, ?_, ?_⟩
  · unfold loadMatches
    rw [s3Of_competitionsKey d]
    simp only [pyIter, hloop]
    rfl
  · rw [hcr, createMatchesTable_created]
  · exact fun c hc ms hms m hm => hpres c hc ms hms m hm

theorem matchesPairLoop_noop (c0 : CompSrc) (ms : List MatchSrc) (db : DB)
    (hpres : ∀ m ∈ ms, midPresent db m.match_id = true) :
    matchesPairLoop (.i c0.competition_id) (.i c0.season_id)
      (ms.map MatchSrc.json) ⟨db, false⟩ = .fine ⟨db, false⟩ := by
  induction ms with
  | nil => rfl
  | cons m rest ih =>
    have hins := insertMatchIgnore_i db ⟨.i m.match_id, .i c0.competition_id,
      .i c0.season_id, .s m.match_date, .s m.home, .s m.away⟩ m.match_id rfl
    rw [hpres m (List.mem_cons_self m rest)] at hins
    simp only [if_true] at hins
    have hconn : connExec ⟨db, false⟩
        (fun dbx => insertMatchIgnore dbx ⟨.i m.match_id, .i c0.competition_id,
          .i c0.season_id, .s m.match_date, .s m.home, .s m.away⟩)
        = .fine ⟨db, false⟩ := by
      unfold connExec
      simp only [Bool.false_eq_true, if_false, hins]
    simp only [List.map_cons, matchesPairLoop, normalizeMatchRow_src, hconn]
    exact ih (fun m2 h2 => hpres m2 (List.mem_cons_of_mem _ h2))

theorem matchesPairStep_noop (d : Dataset) (hwf : d.wf) (c0 : CompSrc)
    (hc0 : c0 ∈ d.comps) (db : DB)
    (hpres : ∀ ms, d.matchesOf c0.competition_id c0.season_id = some ms →
      ∀ m ∈ ms, midPresent db m.match_id = true) :
    matchesPairStep (s3Of d) (CompSrc.json c0) ⟨db, false⟩ = .ok ⟨db, false⟩ := by
  unfold matchesPairStep
  rw [compJson_cid, compJson_sid]
  simp only [exceptOkBind, s3Of_pair d hwf c0 hc0]
  cases ho : d.matchesOf c0.competition_id c0.season_id with
  | none => rfl
  | some ms =>
    simp only [pyIter, matchesPairLoop_noop c0 ms db (hpres ms ho)]

theorem matchesCompsLoop_noop (d : Dataset) (hwf : d.wf) :
    ∀ (l : List CompSrc), (∀ c ∈ l, c ∈ d.comps) →
      ∀ db : DB,
        (∀ c ∈ l, ∀ ms, d.matchesOf c.competition_id c.season_id = some ms →
          ∀ m ∈ ms, midPresent db m.match_id = true) →
        matchesCompsLoop (s3Of d) (l.map CompSrc.json) ⟨db, false⟩ = .ok ⟨db, false⟩ := by
  intro l
  induction l with
  | nil => intro _ db _; rfl
  | cons c0 rest ih =>
    intro hsub db hpres
    have hstep := matchesPairStep_noop d hwf c0 (hsub c0 (List.mem_cons_self c0 rest))
      db (fun ms hms m hm => hpres c0 (List.mem_cons_self c0 rest) ms hms m hm)
    simp only [List.map_cons, matchesCompsLoop, hstep]
    exact ih (fun c2 h2 => hsub c2 (List.mem_cons_of_mem _ h2)) db
      (fun c hc ms hms m hm => hpres c (List.mem_cons_of_mem _ hc) ms hms m hm)

theorem loadMatches_ds_noop (d : Dataset) (hwf : d.wf) (db : DB)
    (hc : db.matchesCreated = true) (hp : matchIdsPresent d db) :
    loadMatches (s3Of d) db = (db, none) := by
  have hc0 : createMatchesTable db = db := by
    unfold createMatchesTable
    rw [hc]
    rfl
  unfold loadMatches
  rw [hc0, s3Of_competitionsKey d]
  simp only [pyIter,
    matchesCompsLoop_noop d hwf d.comps (fun c h => h) db
      (fun c hc2 ms hms m hm => hp c hc2 ms hms m hm)]
  rfl

/-- C2 (amended).  For every well-typed source data set — every manifest
record with integer ids, every match with an integer `match_id`, every
event with a non-null integer `index` — running the matches job twice
yields the same `matches` row count as once, and running the events job
twice (under any two worker schedules) yields the same `events` row count
as once, given the declared uniqueness constraints.  (The restriction on
event indexes is forced by the counterexample: a null index escapes
`UNIQUE (match_id, index)` and duplicates on re-run.) -/
theorem c2_amended_idempotent_row_counts (d : Dataset) (hwf : d.wf)
    (sched1 sched2 : List MatchInfo → List MatchInfo)
    (hs1 : ∀ l, (sched1 l).Perm l) (hs2 : ∀ l, (sched2 l).Perm l) :
    (loadMatches (s3Of d) (loadMatches (s3Of d) DB.empty).1).1.matchesTbl.length
        = (loadMatches (s3Of d) DB.empty).1.matchesTbl.length ∧
      (loadEvents (s3Of d) sched2
          (loadEvents (s3Of d) sched1 DB.empty).db).db.events.length
        = (loadEvents (s3Of d) sched1 DB.empty).db.events.length := by
  constructor
  · obtain ⟨db2, h1, hcr, hpres⟩ := loadMatches_ds_run d hwf DB.empty
    rw [h1, loadMatches_ds_noop d hwf db2 hcr hpres]
  · cases hpool : poolRun (s3Of d) (sched1 (dsMl d)) (createEventsTableUnique DB.empty, 0) with
    | mk db2 ctr =>
      have hu2 : db2.eventsUnique = true := by
        have h := poolRun_eventsUnique (s3Of d) (sched1 (dsMl d))
          (createEventsTableUnique DB.empty) 0
        rw [hpool] at h
        exact h
      have hcr2 : db2.eventsCreated = true := by
        have h := poolRun_eventsCreated (s3Of d) (sched1 (dsMl d))
          (createEventsTableUnique DB.empty) 0
        rw [hpool] at h
        exact h
      have hp2 : eventKeysPresent d db2 := by
        have h := poolRun_establishes d hwf (sched1 (dsMl d))
          (fun mi hm => ((hs1 (dsMl d)).mem_iff).mpr hm)
          (createEventsTableUnique DB.empty) 0
        rw [hpool] at h
        exact h
      have hrun1 : (loadEvents (s3Of d) sched1 DB.empty).db = db2 := by
        rw [loadEvents_ds_eq d hwf sched1 DB.empty, hpool]
        exact seqTail_ds d hwf db2 hu2 hcr2 hp2
      rw [hrun1]
      have hcu2 : createEventsTableUnique db2 = db2 := by
        unfold createEventsTableUnique
        rw [hcr2]
        rfl
      rw [loadEvents_ds_eq d hwf sched2 db2, hcu2]
      cases hpool2 : poolRun (s3Of d) (sched2 (dsMl d)) (db2, 0) with
      | mk db3 ctr2 =>
        have hev3 : db3.events = db2.events := by
          have h := poolRun_ds_noop d hwf (sched2 (dsMl d)) db2 hp2
            (fun mi hm => ((hs2 (dsMl d)).mem_iff).mp hm) db2 0 rfl hu2
          rw [hpool2] at h
          exact h
        have hu3 : db3.eventsUnique = true := by
          have h := poolRun_eventsUnique (s3Of d) (sched2 (dsMl d)) db2 0
          rw [hpool2] at h
          rw [h]
          exact hu2
        have hcr3 : db3.eventsCreated = true := by
          have h := poolRun_eventsCreated (s3Of d) (sched2 (dsMl d)) db2 0
          rw [hpool2] at h
          rw [h]
          exact hcr2
        have hp3 : eventKeysPresent d db3 := by
          intro mid hm es hes e he
          rw [keyPresent_congr db3 db2 hev3]
          exact hp2 mid hm es hes e he
        have hfst : ((db3, ctr2).1 : DB) = db3 := rfl
        rw [hfst, seqTail_ds d hwf db3 hu3 hcr3 hp3, hev3]

/-- Witness for C2 (amended), on the concrete data set `dsW` (two pairs,
one with a missing match list, three well-indexed events), with the
identity schedule for both runs. -/
theorem c2_amended_witness :
    (loadMatches (s3Of dsW) (loadMatches (s3Of dsW) DB.empty).1).1.matchesTbl.length
        = (loadMatches (s3Of dsW) DB.empty).1.matchesTbl.length ∧
      (loadEvents (s3Of dsW) id
          (loadEvents (s3Of dsW) id DB.empty).db).db.events.length
        = (loadEvents (s3Of dsW) id DB.empty).db.events.length :=
  c2_amended_idempotent_row_counts dsW (by decide) id id
    (fun l => List.Perm.refl l) (fun l => List.Perm.refl l)
